import Mathlib

/- Formal model of the Wizard-Arena entity/physics core: the oriented-box SAT
   narrow phase (src/utils.js), the entity store (EntityManager / Entity.js),
   the uniform spatial grid (src/spatialGrid.js), and the per-tick system
   pipeline of ScenePlay (sMovement, sGravity, sCollision, sLifespan).
   JavaScript numbers are modelled as exact reals; the spatial grid, which
   only performs arithmetic and floors, is modelled over the rationals so
   that its statements are decidable. -/

open scoped Classical

/-- World-space 3D vector with real components (models THREE.Vector3). -/
structure Vec3 where
  x : ℝ
  y : ℝ
  z : ℝ

/-- Componentwise vector addition. -/
def Vec3.add (a b : Vec3) : Vec3 := ⟨a.x + b.x, a.y + b.y, a.z + b.z⟩

/-- Componentwise vector subtraction (THREE.Vector3.subVectors). -/
def Vec3.sub (a b : Vec3) : Vec3 := ⟨a.x - b.x, a.y - b.y, a.z - b.z⟩

/-- Scalar multiple of a vector (THREE.Vector3.multiplyScalar). -/
def Vec3.smul (c : ℝ) (v : Vec3) : Vec3 := ⟨c * v.x, c * v.y, c * v.z⟩

/-- Componentwise negation (THREE.Vector3.negate). -/
def Vec3.neg (v : Vec3) : Vec3 := ⟨-v.x, -v.y, -v.z⟩

/-- Dot product. -/
def Vec3.dot (a b : Vec3) : ℝ := a.x * b.x + a.y * b.y + a.z * b.z

/-- Squared Euclidean length (THREE.Vector3.lengthSq). -/
def Vec3.lengthSq (v : Vec3) : ℝ := v.dot v

/-- Euclidean length (THREE.Vector3.length). -/
noncomputable def Vec3.length (v : Vec3) : ℝ := Real.sqrt v.lengthSq

/-- THREE.Vector3.normalize: divide by the length, or by 1 when the length is 0
    (the JS source is divideScalar(this.length() || 1)). -/
noncomputable def Vec3.normalize (v : Vec3) : Vec3 :=
  Vec3.smul (1 / (if v.length = 0 then 1 else v.length)) v

/-- The zero vector. -/
def Vec3.zero : Vec3 := ⟨0, 0, 0⟩

/-- Quaternion (x, y, z, w), as used by THREE.Quaternion. -/
structure Quat where
  qx : ℝ
  qy : ℝ
  qz : ℝ
  qw : ℝ

/-- THREE.Vector3.applyQuaternion: t = 2 (q.xyz × v); v + w t + q.xyz × t. -/
noncomputable def applyQuat (q : Quat) (v : Vec3) : Vec3 :=
  let tx := 2 * (q.qy * v.z - q.qz * v.y)
  let ty := 2 * (q.qz * v.x - q.qx * v.z)
  let tz := 2 * (q.qx * v.y - q.qy * v.x)
  ⟨v.x + q.qw * tx + q.qy * tz - q.qz * ty,
   v.y + q.qw * ty + q.qz * tx - q.qx * tz,
   v.z + q.qw * tz + q.qx * ty - q.qy * tx⟩

/-- Column-major 3x3 matrix, elements laid out like THREE.Matrix3.elements. -/
structure Mat3 where
  e0 : ℝ
  e1 : ℝ
  e2 : ℝ
  e3 : ℝ
  e4 : ℝ
  e5 : ℝ
  e6 : ℝ
  e7 : ℝ
  e8 : ℝ

/-- The rotation matrix of a unit quaternion: Matrix3.setFromMatrix4 applied to
    Matrix4.makeRotationFromQuaternion, as done in getOBB (src/utils.js). -/
noncomputable def quatToMat3 (q : Quat) : Mat3 :=
  let x2 := q.qx + q.qx
  let y2 := q.qy + q.qy
  let z2 := q.qz + q.qz
  let xx := q.qx * x2
  let xy := q.qx * y2
  let xz := q.qx * z2
  let yy := q.qy * y2
  let yz := q.qy * z2
  let zz := q.qz * z2
  let wx := q.qw * x2
  let wy := q.qw * y2
  let wz := q.qw * z2
  ⟨1 - (yy + zz), xy + wz, xz - wy,
   xy - wz, 1 - (xx + zz), yz + wx,
   xz + wy, yz - wx, 1 - (xx + yy)⟩

/-- Oriented bounding box: center, half extents and a rotation matrix
    (three/examples OBB as used by satOBB). -/
structure OBB where
  center : Vec3
  halfSize : Vec3
  rotation : Mat3

/-- First column of the rotation matrix: the box's local X axis. -/
def OBB.axisX (o : OBB) : Vec3 := ⟨o.rotation.e0, o.rotation.e1, o.rotation.e2⟩

/-- Second column of the rotation matrix: the box's local Y axis. -/
def OBB.axisY (o : OBB) : Vec3 := ⟨o.rotation.e3, o.rotation.e4, o.rotation.e5⟩

/-- Third column of the rotation matrix: the box's local Z axis. -/
def OBB.axisZ (o : OBB) : Vec3 := ⟨o.rotation.e6, o.rotation.e7, o.rotation.e8⟩

/-- obbAxes (src/utils.js): the three local axes of an OBB, in order. -/
def obbAxes (o : OBB) : List Vec3 := [o.axisX, o.axisY, o.axisZ]

/-- Scalar projection interval of a box on an axis. -/
structure ProjInterval where
  min : ℝ
  max : ℝ

/-- projectOBB (src/utils.js): projection of an OBB onto an axis. -/
def projectOBB (o : OBB) (axis : Vec3) : ProjInterval :=
  let r := o.halfSize.x * |axis.dot o.axisX|
         + o.halfSize.y * |axis.dot o.axisY|
         + o.halfSize.z * |axis.dot o.axisZ|
  let c := o.center.dot axis
  ⟨c - r, c + r⟩

/-- The negligibility threshold 1e-10 used by satOBB on squared axis lengths. -/
noncomputable def obbEps : ℝ := 1 / 10 ^ 10

/-- The scalar overlap min(maxA, maxB) - max(minA, minB) that satOBB computes
    for one candidate axis. -/
def overlapOn (A B : OBB) (axis : Vec3) : ℝ :=
  min (projectOBB A axis).max (projectOBB B axis).max -
    max (projectOBB A axis).min (projectOBB B axis).min

/-- One accumulator update of satOBB's loop: keep the smaller overlap, with
    strict improvement only (ties keep the earlier axis); none plays the role
    of minOverlap = Infinity with no axis chosen yet. -/
noncomputable def satStep (A B : OBB) (acc : Option (ℝ × Vec3)) (axis : Vec3) :
    Option (ℝ × Vec3) :=
  match acc with
  | none => some (overlapOn A B axis, axis.normalize)
  | some (mo, v) =>
    if overlapOn A B axis < mo then some (overlapOn A B axis, axis.normalize)
    else some (mo, v)

/-- The axis loop of satOBB (src/utils.js): skip negligible axes, return the
    outer none on a separating axis (overlap ≤ 0), otherwise thread the
    minimum-overlap accumulator through. -/
noncomputable def satLoop (A B : OBB) : List Vec3 → Option (ℝ × Vec3) →
    Option (Option (ℝ × Vec3))
  | [], acc => some acc
  | axis :: rest, acc =>
    if axis.lengthSq < obbEps then satLoop A B rest acc
    else if overlapOn A B axis ≤ 0 then none
    else satLoop A B rest (satStep A B acc axis)

/-- satOBB (src/utils.js): SAT on the 6 face axes; returns the MTV, oriented
    from B's center toward A's center, or none when separated. -/
noncomputable def satOBB (A B : OBB) : Option Vec3 :=
  match satLoop A B (obbAxes A ++ obbAxes B) none with
  | none => none
  | some none => none
  | some (some (mo, ax)) =>
    let ax2 := if (A.center.sub B.center).dot ax < 0 then ax.neg else ax
    some (Vec3.smul mo ax2)

/-- The candidate axes that satOBB does not skip: squared length at least the
    negligibility threshold, in enumeration order. -/
noncomputable def keepAxes : List Vec3 → List Vec3
  | [] => []
  | ax :: rest => if ax.lengthSq < obbEps then keepAxes rest else ax :: keepAxes rest

/-- Smallest overlap and the axis attaining it first (ties broken by
    enumeration order), stated independently of satOBB's accumulator loop;
    this renders the specification's words for the tie-break rule. -/
noncomputable def firstMinAx (A B : OBB) : List Vec3 → Option (ℝ × Vec3)
  | [] => none
  | ax :: rest =>
    match firstMinAx A B rest with
    | none => some (overlapOn A B ax, ax)
    | some (m, bx) =>
      if m < overlapOn A B ax then some (m, bx) else some (overlapOn A B ax, ax)

/-- The narrow-phase result as the specification words it: if every
    non-negligible candidate axis has positive overlap, take the axis with the
    smallest overlap (ties by enumeration order), normalize it, orient it from
    B's center toward A's center, and scale by the minimal overlap; otherwise
    none. -/
noncomputable def satOBBspec (A B : OBB) : Option Vec3 :=
  let cands := keepAxes (obbAxes A ++ obbAxes B)
  if ∀ ax ∈ cands, 0 < overlapOn A B ax then
    match firstMinAx A B cands with
    | none => none
    | some (m, ax) =>
      let u := ax.normalize
      let u2 := if (A.center.sub B.center).dot u < 0 then u.neg else u
      some (Vec3.smul m u2)
  else none

/-- PositionComponent: world position plus the per-tick grounded flag. -/
structure PosComp where
  position : Vec3
  isOnGround : Bool

/-- HealthComponent: maximum and current hit points. -/
structure HealthComp where
  maxHp : ℝ
  hp : ℝ

/-- CollisionComponent: OBB half extents and orientation quaternion. -/
structure ColComp where
  half : Vec3
  rotation : Quat

/-- A game entity: id, tag, alive flag and its bag of components, modelled as
    one optional field or marker flag per component class. -/
structure Entity where
  id : ℕ
  tag : String
  alive : Bool
  pos : Option PosComp
  vel : Option Vec3
  col : Option ColComp
  health : Option HealthComp
  lifespan : Option ℝ
  input : Bool
  gravity : Bool
  combustible : Bool
  mesh : Bool

/-- A freshly constructed entity: alive, with an empty component bag. -/
def entDefault : Entity :=
  ⟨0, "default", true, none, none, none, none, none, false, false, false, false⟩

/-- Entity.destroy (src/Entity.js): mark the alive flag false; nothing else. -/
def Entity.destroy (e : Entity) : Entity := { e with alive := false }

/-- Component class names, for getWithComponentName queries. -/
inductive CompName where
  | position
  | velocity
  | collision
  | health
  | lifespan
  | inputC
  | gravityC
  | combustibleC
  | meshC

/-- Entity.hasComponent: whether the entity's bag holds the named component. -/
def hasComp (e : Entity) : CompName → Bool
  | .position => e.pos.isSome
  | .velocity => e.vel.isSome
  | .collision => e.col.isSome
  | .health => e.health.isSome
  | .lifespan => e.lifespan.isSome
  | .inputC => e.input
  | .gravityC => e.gravity
  | .combustibleC => e.combustible
  | .meshC => e.mesh

/-- EntityManager state: live list, add buffer, tag index, id counter. -/
structure EntityManager where
  entities : List Entity
  entitiesToAdd : List Entity
  entityMap : List (String × List Entity)
  entityCount : ℕ

/-- An empty EntityManager, as built by the constructor. -/
def emEmpty : EntityManager := ⟨[], [], [], 0⟩

/-- EntityManager.getWithComponentName: active entities of the live list that
    hold every named component. -/
def EntityManager.getWithComponentName (m : EntityManager) (names : List CompName) :
    List Entity :=
  m.entities.filter (fun e => e.alive && names.all (fun n => hasComp e n))

/-- EntityManager.getWithID: the ACTIVE entity with the given id, or none. -/
def EntityManager.getWithID (m : EntityManager) (i : ℕ) : Option Entity :=
  m.entities.find? (fun e => e.id == i && e.alive)

/-- EntityManager.getEntities: the full live list, including entities already
    marked inactive but not yet pruned. -/
def EntityManager.getEntities (m : EntityManager) : List Entity := m.entities

/-- EntityManager.addEntity: construct a fresh entity with the next id, buffer
    it into entitiesToAdd, return it immediately. -/
def EntityManager.addEntity (m : EntityManager) (tag : String) :
    Entity × EntityManager :=
  let e := { entDefault with
    id := m.entityCount, tag := tag }
  (e, { m with entitiesToAdd := m.entitiesToAdd ++ [e],
               entityCount := m.entityCount + 1 })

/-- Insert one entity into the tag index: push onto the tag's bucket, creating
    the bucket when absent (EntityManager.update's per-entity step). -/
def mapAddToTag (mp : List (String × List Entity)) (e : Entity) :
    List (String × List Entity) :=
  if mp.any (fun kv => kv.1 == e.tag) then
    mp.map (fun kv => if kv.1 == e.tag then (kv.1, kv.2 ++ [e]) else kv)
  else mp ++ [(e.tag, [e])]

/-- EntityManager.update: flush the add buffer into the live list and tag
    index, then prune inactive entities from both. -/
def EntityManager.update (m : EntityManager) : EntityManager :=
  let ents := m.entities ++ m.entitiesToAdd
  let mp := m.entitiesToAdd.foldl mapAddToTag m.entityMap
  { m with
    entities := ents.filter (fun e => e.alive),
    entitiesToAdd := [],
    entityMap := mp.map (fun kv => (kv.1, kv.2.filter (fun e => e.alive))) }

/-- Rational 3D vector, for the spatial grid (only x and z are read). -/
structure VecQ where
  x : ℚ
  y : ℚ
  z : ℚ
deriving DecidableEq

/-- Axis-aligned box with min and max corners (THREE.Box3 as the grid uses it). -/
structure Box3Q where
  min : VecQ
  max : VecQ
deriving DecidableEq

/-- Inclusive range of cell indices covered by a box on both axes
    (SpatialGrid boundsToCell, with the 0.001 epsilon on the max edge). -/
structure CellRange where
  minCX : ℤ
  maxCX : ℤ
  minCZ : ℤ
  maxCZ : ℤ

/-- SpatialGrid worldToCell: floor(coordinate / cellSize). -/
def worldToCell (cellSize : ℚ) (c : ℚ) : ℤ := ⌊c / cellSize⌋

/-- SpatialGrid boundsToCell. -/
def boundsToCell (cellSize : ℚ) (b : Box3Q) : CellRange :=
  ⟨worldToCell cellSize b.min.x, worldToCell cellSize (b.max.x + 1 / 1000),
   worldToCell cellSize b.min.z, worldToCell cellSize (b.max.z + 1 / 1000)⟩

/-- The integers from lo to hi inclusive, in increasing order. -/
def intRange (lo hi : ℤ) : List ℤ :=
  (List.range (hi + 1 - lo).toNat).map (fun k : ℕ => lo + (k : ℤ))

/-- All cell keys of a box's range, in the insertion loop's order. -/
def cellKeys (cellSize : ℚ) (b : Box3Q) : List (ℤ × ℤ) :=
  let r := boundsToCell cellSize b
  (intRange r.minCX r.maxCX).flatMap
    (fun cx => (intRange r.minCZ r.maxCZ).map (fun cz => (cx, cz)))

/-- Add an element to a JS Set modelled as a duplicate-free list. -/
def setAdd (l : List ℕ) (o : ℕ) : List ℕ := if o ∈ l then l else l ++ [o]

/-- SpatialGrid state: cell size, cell map and reverse index. Objects are
    identified by numeric ids. -/
structure SpatialGrid where
  cellSize : ℚ
  cells : List ((ℤ × ℤ) × List ℕ)
  objectCells : List (ℕ × List (ℤ × ℤ))

/-- A cleared grid with the given cell size. -/
def gridEmpty (cellSize : ℚ) : SpatialGrid := ⟨cellSize, [], []⟩

/-- Add an object to one cell's bucket, creating the bucket when absent. -/
def cellsAdd (cs : List ((ℤ × ℤ) × List ℕ)) (key : ℤ × ℤ) (o : ℕ) :
    List ((ℤ × ℤ) × List ℕ) :=
  if cs.any (fun kv => kv.1 == key) then
    cs.map (fun kv => if kv.1 == key then (kv.1, setAdd kv.2 o) else kv)
  else cs ++ [(key, [o])]

/-- SpatialGrid.insert: register the object in every cell of its bounds'
    range and record the keys in the reverse index. -/
def SpatialGrid.insert (g : SpatialGrid) (o : ℕ) (b : Box3Q) : SpatialGrid :=
  let keys := cellKeys g.cellSize b
  { g with
    cells := keys.foldl (fun cs key => cellsAdd cs key o) g.cells,
    objectCells := g.objectCells ++ [(o, keys)] }

/-- Look up one bucket in a cell map. -/
def cellsBucket (cs : List ((ℤ × ℤ) × List ℕ)) (key : ℤ × ℤ) : List ℕ :=
  match cs.find? (fun kv => kv.1 == key) with
  | some kv => kv.2
  | none => []

/-- Look up one cell's bucket. -/
def cellBucket (g : SpatialGrid) (key : ℤ × ℤ) : List ℕ :=
  cellsBucket g.cells key

/-- SpatialGrid.query: all objects in the cells overlapped by the box, as a
    deduplicated list. -/
def SpatialGrid.query (g : SpatialGrid) (b : Box3Q) : List ℕ :=
  (cellKeys g.cellSize b).foldl
    (fun acc key => (cellBucket g key).foldl setAdd acc) []

/-- Player tuning constants of ScenePlay.playerConfig. -/
structure PlayerConfig where
  speed : ℝ
  jumpStrength : ℝ
  gravity : ℝ

/-- Held state of the movement keys read by sMovement. -/
structure Keys where
  keyW : Bool
  keyA : Bool
  keyS : Bool
  keyD : Bool
  space : Bool

/-- Zero the y component: forward.y = 0 before normalizing, in sMovement. -/
def projXZ (v : Vec3) : Vec3 := ⟨v.x, 0, v.z⟩

/-- getOBB (src/utils.js): build the entity's OBB from its position and
    collision component (defaults are irrelevant: callers filter for both). -/
noncomputable def getOBB (e : Entity) : OBB :=
  let p := (e.pos.getD ⟨Vec3.zero, false⟩).position
  let c := e.col.getD ⟨Vec3.zero, ⟨0, 0, 0, 1⟩⟩
  ⟨p, c.half, quatToMat3 c.rotation⟩

/-- ScenePlay.sMovement: player-controlled entities move along the normalized
    camera-relative input direction and may jump; other dynamic entities
    integrate position by velocity. -/
noncomputable def sMovement (es : List Entity) (keys : Keys) (cam : Quat)
    (cfg : PlayerConfig) (dt : ℝ) : List Entity :=
  es.map (fun e =>
    match e.pos, e.vel with
    | some p, some v =>
      if e.alive then
        if e.input then
          let fwdN : ℝ := (if keys.keyW then 1 else 0) - (if keys.keyS then 1 else 0)
          let sideN : ℝ := (if keys.keyD then 1 else 0) - (if keys.keyA then 1 else 0)
          let forward := (projXZ (applyQuat cam ⟨0, 0, -1⟩)).normalize
          let right := (projXZ (applyQuat cam ⟨1, 0, 0⟩)).normalize
          let mv := (Vec3.zero.add (Vec3.smul fwdN forward)).add (Vec3.smul sideN right)
          let mv2 := if 0 < mv.lengthSq then mv.normalize else mv
          let p2 := { p with position := p.position.add (Vec3.smul (cfg.speed * dt) mv2) }
          let v2 := if keys.space ∧ p2.isOnGround then { v with y := cfg.jumpStrength } else v
          { e with pos := some p2, vel := some v2 }
        else
          { e with pos := some { p with position := p.position.add (Vec3.smul dt v) } }
      else e
    | _, _ => e)

/-- ScenePlay.sGravity: entities with gravity that are not grounded accumulate
    downward velocity and integrate position with the updated velocity. -/
noncomputable def sGravity (es : List Entity) (cfg : PlayerConfig) (dt : ℝ) :
    List Entity :=
  es.map (fun e =>
    match e.pos, e.vel with
    | some p, some v =>
      if e.alive ∧ e.gravity then
        if p.isOnGround then e
        else
          let v2 : Vec3 := ⟨v.x, v.y - cfg.gravity * dt, v.z⟩
          { e with vel := some v2,
                   pos := some { p with position := p.position.add (Vec3.smul dt v2) } }
      else e
    | _, _ => e)

/-- The grounded-flag reset on one entity: clear isOnGround when the entity is
    active and has both Position and Velocity. -/
def resetEnt (e : Entity) : Entity :=
  if e.alive ∧ e.pos.isSome ∧ e.vel.isSome then
    { e with pos := e.pos.map (fun p => { p with isOnGround := false }) }
  else e

/-- The reset loop at the top of ScenePlay.sCollision. -/
def resetGrounded (es : List Entity) : List Entity := es.map resetEnt

/-- Set hp := hp - 30 when a Health component is present (combustion damage). -/
def damageIfHealth (e : Entity) : Entity :=
  { e with health := e.health.map (fun h => { h with hp := h.hp - 30 }) }

/-- Update the stored position vector of an entity, when present. -/
def updPosition (f : Vec3 → Vec3) (e : Entity) : Entity :=
  { e with pos := e.pos.map (fun p => { p with position := f p.position }) }

/-- Set the grounded flag true, when a Position component is present. -/
def setGroundTrue (e : Entity) : Entity :=
  { e with pos := e.pos.map (fun p => { p with isOnGround := true }) }

/-- Zero the vertical velocity, when a Velocity component is present. -/
def zeroVelY (e : Entity) : Entity :=
  { e with vel := e.vel.map (fun v => ⟨v.x, 0, v.z⟩) }

/-- The positional-resolution tail of ScenePlay.sCollision's pair handling:
    push dynamic entities out along the MTV, splitting XZ pushes between two
    dynamic entities and granting the grounded flag on upward pushes. -/
noncomputable def resolvePair (a b : Entity) (mtv : Vec3) : Entity × Entity :=
  if a.vel.isSome ∧ b.vel.isSome then
    if |mtv.y| > |mtv.x| ∧ |mtv.y| > |mtv.z| then
      if mtv.y > 0 then
        (setGroundTrue (zeroVelY (updPosition (fun p => ⟨p.x, p.y + mtv.y, p.z⟩) a)), b)
      else
        (a, setGroundTrue (zeroVelY (updPosition (fun p => ⟨p.x, p.y - mtv.y, p.z⟩) b)))
    else
      (updPosition (fun p => ⟨p.x + mtv.x * (1 / 2), p.y, p.z + mtv.z * (1 / 2)⟩) a,
       updPosition (fun p => ⟨p.x - mtv.x * (1 / 2), p.y, p.z - mtv.z * (1 / 2)⟩) b)
  else if a.vel.isSome then
    let a2 := updPosition (fun p => p.add mtv) a
    if mtv.y > 0 then (setGroundTrue (zeroVelY a2), b) else (a2, b)
  else if b.vel.isSome then
    let b2 := updPosition (fun p => p.sub mtv) b
    if mtv.y < 0 then (a, setGroundTrue (zeroVelY b2)) else (a, b2)
  else (a, b)

/-- One overlapping pair of ScenePlay.sCollision: the combustion rule with its
    two early exits against entity id 0, then positional resolution. -/
noncomputable def pairProcess (a b : Entity) (mtv : Vec3) : Entity × Entity :=
  if a.combustible ∧ b.id = 0 then (a, b)
  else
    let a1 := if a.combustible then Entity.destroy a else a
    let b1 := if a.combustible then damageIfHealth b else b
    if b1.combustible ∧ a1.id = 0 then (a1, b1)
    else
      let b2 := if b1.combustible then Entity.destroy b1 else b1
      let a2 := if b1.combustible then damageIfHealth a1 else a1
      resolvePair a2 b2 mtv

/-- Indices into the entity list of the active entities holding both Collision
    and Position, i.e. the array the pair loop of sCollision runs over. -/
def collidables (es : List Entity) : List ℕ :=
  (List.range es.length).filter
    (fun i => (es.getD i entDefault).alive
      && (es.getD i entDefault).col.isSome
      && (es.getD i entDefault).pos.isSome)

/-- All index pairs (i, j) with i before j, in the double loop's order. -/
def orderedPairs : List ℕ → List (ℕ × ℕ)
  | [] => []
  | i :: rest => rest.map (fun j => (i, j)) ++ orderedPairs rest

/-- Process one index pair: run satOBB on the two entities' current OBBs and,
    when they overlap, write the processed pair back into the list. -/
noncomputable def applyPair (es : List Entity) (ij : ℕ × ℕ) : List Entity :=
  let a := es.getD ij.1 entDefault
  let b := es.getD ij.2 entDefault
  match satOBB (getOBB a) (getOBB b) with
  | none => es
  | some mtv =>
    let ab := pairProcess a b mtv
    (es.set ij.1 ab.1).set ij.2 ab.2

/-- The pair loop of ScenePlay.sCollision, without the grounded reset. -/
noncomputable def collisionPairsPass (es : List Entity) : List Entity :=
  (orderedPairs (collidables es)).foldl applyPair es

/-- ScenePlay.sCollision: reset the grounded flags, then run the pairwise
    SAT/resolution loop. -/
noncomputable def sCollision (es : List Entity) : List Entity :=
  collisionPairsPass (resetGrounded es)

/-- ScenePlay.sLifespan: decrement lifespans and destroy expired entities,
    then destroy entities whose hp has dropped to zero or below. -/
noncomputable def sLifespan (es : List Entity) (dt : ℝ) : List Entity :=
  let es1 := es.map (fun e =>
    match e.lifespan with
    | some s =>
      if e.alive then
        let s2 := s - dt
        if s2 ≤ 0 then Entity.destroy { e with lifespan := some s2 }
        else { e with lifespan := some s2 }
      else e
    | none => e)
  es1.map (fun e =>
    match e.health with
    | some h => if e.alive ∧ h.hp ≤ 0 then Entity.destroy e else e
    | none => e)

/-- The per-tick system chain of ScenePlay.update (camera control and
    rendering touch no entity state and are omitted): movement, gravity,
    collision, lifespan, in the source's order. -/
noncomputable def tickSystems (es : List Entity) (keys : Keys) (cam : Quat)
    (cfg : PlayerConfig) (dt : ℝ) : List Entity :=
  sLifespan (sCollision (sGravity (sMovement es keys cam cfg dt) cfg dt)) dt

/-- The tick as the claim orders it: the grounded reset as the first pipeline
    step, before movement and gravity, with the collision step running only
    its pair loop. -/
noncomputable def tickResetFirst (es : List Entity) (keys : Keys) (cam : Quat)
    (cfg : PlayerConfig) (dt : ℝ) : List Entity :=
  sLifespan (collisionPairsPass (sGravity (sMovement (resetGrounded es) keys cam cfg dt) cfg dt)) dt

/-- The identity rotation matrix. -/
noncomputable def idMat3 : Mat3 := ⟨1, 0, 0, 0, 1, 0, 0, 0, 1⟩

/-- The all-zero (degenerate) rotation matrix. -/
noncomputable def zeroMat3 : Mat3 := ⟨0, 0, 0, 0, 0, 0, 0, 0, 0⟩

/-- The identity quaternion (default CollisionComponent orientation). -/
noncomputable def qIdent : Quat := ⟨0, 0, 0, 1⟩

/-- Test box A: axis-aligned, centered at the origin, default half extents. -/
noncomputable def cBoxA : OBB := ⟨⟨0, 0, 0⟩, ⟨1 / 2, 1, 1 / 2⟩, idMat3⟩

/-- Test box B: axis-aligned, shifted 0.8 along x; overlaps cBoxA with the
    smallest overlap (0.2) on the x axis. -/
noncomputable def cBoxB : OBB := ⟨⟨4 / 5, 0, 0⟩, ⟨1 / 2, 1, 1 / 2⟩, idMat3⟩

/-- Test box separated from cBoxA along x. -/
noncomputable def sBoxB : OBB := ⟨⟨3, 0, 0⟩, ⟨1 / 2, 1, 1 / 2⟩, idMat3⟩

/-- Degenerate box whose rotation matrix is all zeros: all six candidate
    axes have negligible length. -/
noncomputable def dBoxA : OBB := ⟨⟨0, 0, 0⟩, ⟨1, 1, 1⟩, zeroMat3⟩

/-- Combustible test entity without Health, overlapping eVict. -/
noncomputable def eComb : Entity :=
  { entDefault with
    id := 1, tag := "fireballEntity",
    pos := some ⟨⟨0, 0, 0⟩, false⟩,
    col := some ⟨⟨1 / 2, 1, 1 / 2⟩, qIdent⟩,
    combustible := true }

/-- Non-combustible test entity with Health 100, overlapping eComb. -/
noncomputable def eVict : Entity :=
  { entDefault with
    id := 2, tag := "zombieEntity",
    pos := some ⟨⟨4 / 5, 0, 0⟩, false⟩,
    col := some ⟨⟨1 / 2, 1, 1 / 2⟩, qIdent⟩,
    health := some ⟨100, 100⟩ }

/-- Combustible test entity with Health 100, overlapping eComb. -/
noncomputable def eCombB : Entity :=
  { entDefault with
    id := 2, tag := "fireballEntity",
    pos := some ⟨⟨4 / 5, 0, 0⟩, false⟩,
    col := some ⟨⟨1 / 2, 1, 1 / 2⟩, qIdent⟩,
    combustible := true, health := some ⟨100, 100⟩ }

/-- Grounded gravity-affected entity with zero velocity and no collision box. -/
noncomputable def eGrav : Entity :=
  { entDefault with
    id := 3,
    pos := some ⟨⟨0, 5, 0⟩, true⟩,
    vel := some ⟨0, 0, 0⟩,
    gravity := true }

/-- Player-controlled test entity. -/
noncomputable def ePlayer : Entity :=
  { entDefault with
    id := 0, tag := "wizardEntity",
    pos := some ⟨⟨0, 2, 0⟩, false⟩,
    vel := some ⟨0, 0, 0⟩,
    input := true }

/-- No keys held. -/
def keysNone : Keys := ⟨false, false, false, false, false⟩

/-- W and D held: two orthogonal movement inputs. -/
def keysWD : Keys := ⟨true, false, false, true, false⟩

/-- Only W held. -/
def keysW : Keys := ⟨true, false, false, false, false⟩

/-- The ScenePlay playerConfig values: speed 10, jump 13, gravity 20. -/
noncomputable def cfg0 : PlayerConfig := ⟨10, 13, 20⟩

/-- An EntityManager holding one destroyed-but-unpruned entity with id 5. -/
def emDead : EntityManager :=
  ⟨[{ entDefault with id := 5, tag := "zombieEntity", alive := false }], [], [], 6⟩

theorem Vec3.lengthSq_nonneg (v : Vec3) : 0 ≤ v.lengthSq := by
  unfold Vec3.lengthSq Vec3.dot
  nlinarith [mul_self_nonneg v.x, mul_self_nonneg v.y, mul_self_nonneg v.z]

theorem Vec3.length_eq_zero_iff (v : Vec3) : v.length = 0 ↔ v.lengthSq = 0 := by
  unfold Vec3.length
  exact Real.sqrt_eq_zero v.lengthSq_nonneg

theorem Vec3.lengthSq_smul (c : ℝ) (v : Vec3) :
    (Vec3.smul c v).lengthSq = c ^ 2 * v.lengthSq := by
  unfold Vec3.lengthSq Vec3.dot Vec3.smul
  ring

theorem Vec3.length_smul (c : ℝ) (v : Vec3) :
    (Vec3.smul c v).length = |c| * v.length := by
  unfold Vec3.length
  rw [Vec3.lengthSq_smul, Real.sqrt_mul (sq_nonneg c), Real.sqrt_sq_eq_abs]

theorem Vec3.lengthSq_neg (v : Vec3) : (Vec3.neg v).lengthSq = v.lengthSq := by
  unfold Vec3.lengthSq Vec3.dot Vec3.neg
  ring

theorem Vec3.length_neg (v : Vec3) : (Vec3.neg v).length = v.length := by
  unfold Vec3.length
  rw [Vec3.lengthSq_neg]

theorem Vec3.length_pos_of_ne (v : Vec3) (h : v.lengthSq ≠ 0) : 0 < v.length := by
  have h0 : 0 ≤ v.length := Real.sqrt_nonneg _
  rcases lt_or_eq_of_le h0 with hlt | heq
  · exact hlt
  · exact absurd ((Vec3.length_eq_zero_iff v).mp heq.symm) h

theorem Vec3.length_normalize (v : Vec3) (h : v.lengthSq ≠ 0) :
    v.normalize.length = 1 := by
  have hpos : 0 < v.length := v.length_pos_of_ne h
  have hl : v.length ≠ 0 := ne_of_gt hpos
  unfold Vec3.normalize
  rw [if_neg hl, Vec3.length_smul, abs_of_pos (div_pos one_pos hpos), one_div,
    inv_mul_cancel₀ hl]

theorem Vec3.lengthSq_normalize (v : Vec3) (h : v.lengthSq ≠ 0) :
    v.normalize.lengthSq = 1 := by
  have h1 : v.normalize.length = 1 := v.length_normalize h
  have h2 : v.normalize.length ^ 2 = v.normalize.lengthSq :=
    Real.sq_sqrt v.normalize.lengthSq_nonneg
  rw [h1] at h2
  simpa using h2.symm

theorem obbEps_pos : 0 < obbEps := by
  unfold obbEps
  positivity

theorem keepAxes_mem {l : List Vec3} {ax : Vec3} (h : ax ∈ keepAxes l) :
    ax ∈ l ∧ ¬ ax.lengthSq < obbEps := by
  induction l with
  | nil => simp [keepAxes] at h
  | cons a t ih =>
    by_cases hs : a.lengthSq < obbEps
    · rw [keepAxes, if_pos hs] at h
      exact ⟨List.mem_cons_of_mem _ (ih h).1, (ih h).2⟩
    · rw [keepAxes, if_neg hs] at h
      rcases List.mem_cons.mp h with rfl | h2
      · exact ⟨List.mem_cons_self _ _, hs⟩
      · exact ⟨List.mem_cons_of_mem _ (ih h2).1, (ih h2).2⟩

theorem mem_keepAxes {l : List Vec3} {ax : Vec3} (h : ax ∈ l)
    (hbig : ¬ ax.lengthSq < obbEps) : ax ∈ keepAxes l := by
  induction l with
  | nil => simp at h
  | cons a t ih =>
    rcases List.mem_cons.mp h with rfl | h2
    · rw [keepAxes, if_neg hbig]
      exact List.mem_cons_self _ _
    · by_cases hs : a.lengthSq < obbEps
      · rw [keepAxes, if_pos hs]
        exact ih h2
      · rw [keepAxes, if_neg hs]
        exact List.mem_cons_of_mem _ (ih h2)

theorem keepAxes_eq_nil (l : List Vec3) (h : ∀ ax ∈ l, ax.lengthSq < obbEps) :
    keepAxes l = [] := by
  induction l with
  | nil => rfl
  | cons a t ih =>
    rw [keepAxes, if_pos (h a (List.mem_cons_self a t))]
    exact ih (fun ax hax => h ax (List.mem_cons_of_mem _ hax))

theorem satLoop_eq_some_iff (A B : OBB) (l : List Vec3) (acc res : Option (ℝ × Vec3)) :
    satLoop A B l acc = some res ↔
      ((∀ ax ∈ keepAxes l, 0 < overlapOn A B ax) ∧
        res = (keepAxes l).foldl (satStep A B) acc) := by
  induction l generalizing acc with
  | nil => simp [satLoop, keepAxes, eq_comm]
  | cons a t ih =>
    by_cases hs : a.lengthSq < obbEps
    · rw [satLoop, if_pos hs, keepAxes, if_pos hs]
      exact ih acc
    · by_cases ho : overlapOn A B a ≤ 0
      · rw [satLoop, if_neg hs, if_pos ho, keepAxes, if_neg hs]
        constructor
        · intro h
          cases h
        · rintro ⟨hall, -⟩
          exact absurd (hall a (List.mem_cons_self a _)) (not_lt.mpr ho)
      · rw [satLoop, if_neg hs, if_neg ho, keepAxes, if_neg hs]
        rw [ih (satStep A B acc a)]
        simp only [List.forall_mem_cons, List.foldl_cons]
        have hpos : 0 < overlapOn A B a := lt_of_not_le ho
        tauto

theorem firstMinAx_eq_none_iff (A B : OBB) (l : List Vec3) :
    firstMinAx A B l = none ↔ l = [] := by
  cases l with
  | nil => simp [firstMinAx]
  | cons a t =>
    simp only [firstMinAx]
    cases F : firstMinAx A B t with
    | none => simp
    | some p =>
      obtain ⟨m, bx⟩ := p
      by_cases h : m < overlapOn A B a
      · simp [if_pos h]
      · simp [if_neg h]

theorem foldl_satStep_acc (A B : OBB) (t : List Vec3) :
    ∀ (mo : ℝ) (v : Vec3),
      t.foldl (satStep A B) (some (mo, v)) =
        (match firstMinAx A B t with
         | none => some (mo, v)
         | some (m, bx) =>
           if m < mo then some (m, bx.normalize) else some (mo, v)) := by
  induction t with
  | nil => intro mo v; simp [firstMinAx]
  | cons a t ih =>
    intro mo v
    rw [List.foldl_cons]
    show t.foldl (satStep A B)
        (if overlapOn A B a < mo then some (overlapOn A B a, a.normalize)
         else some (mo, v)) = _
    by_cases h1 : overlapOn A B a < mo
    · rw [if_pos h1, ih]
      cases F : firstMinAx A B t with
      | none => simp [firstMinAx, F, if_pos h1]
      | some p =>
        obtain ⟨m, bx⟩ := p
        by_cases h2 : m < overlapOn A B a
        · have h3 : m < mo := lt_trans h2 h1
          simp [firstMinAx, F, if_pos h2, if_pos h3]
        · simp [firstMinAx, F, if_neg h2, if_pos h1]
    · rw [if_neg h1, ih]
      cases F : firstMinAx A B t with
      | none => simp [firstMinAx, F, if_neg h1]
      | some p =>
        obtain ⟨m, bx⟩ := p
        by_cases h2 : m < overlapOn A B a
        · simp [firstMinAx, F, if_pos h2]
        · have h3 : ¬ m < mo := by
            push_neg at h1 h2 ⊢
            exact le_trans h1 h2
          simp [firstMinAx, F, if_neg h2, if_neg h1, if_neg h3]

theorem foldl_satStep_none (A B : OBB) (l : List Vec3) :
    l.foldl (satStep A B) none =
      (firstMinAx A B l).map (fun p => (p.1, p.2.normalize)) := by
  cases l with
  | nil => simp [firstMinAx]
  | cons a t =>
    rw [List.foldl_cons]
    show t.foldl (satStep A B) (some (overlapOn A B a, a.normalize)) = _
    rw [foldl_satStep_acc]
    cases F : firstMinAx A B t with
    | none => simp [firstMinAx, F]
    | some p =>
      obtain ⟨m, bx⟩ := p
      by_cases h2 : m < overlapOn A B a
      · simp [firstMinAx, F, if_pos h2]
      · simp [firstMinAx, F, if_neg h2]

theorem firstMinAx_char (A B : OBB) :
    ∀ (l : List Vec3) (m : ℝ) (bx : Vec3), firstMinAx A B l = some (m, bx) →
      bx ∈ l ∧ m = overlapOn A B bx ∧ ∀ a ∈ l, m ≤ overlapOn A B a := by
  intro l
  induction l with
  | nil => intro m bx h; simp [firstMinAx] at h
  | cons a t ih =>
    intro m bx h
    rw [firstMinAx] at h
    cases F : firstMinAx A B t with
    | none =>
      rw [F] at h
      dsimp only at h
      have ht : t = [] := (firstMinAx_eq_none_iff A B t).mp F
      simp only [Option.some.injEq, Prod.mk.injEq] at h
      obtain ⟨rfl, rfl⟩ := h
      subst ht
      exact ⟨List.mem_cons_self _ _, rfl, by simp⟩
    | some p =>
      obtain ⟨m', bx'⟩ := p
      rw [F] at h
      dsimp only at h
      obtain ⟨hmem, hval, hall⟩ := ih m' bx' F
      by_cases h2 : m' < overlapOn A B a
      · rw [if_pos h2] at h
        simp only [Option.some.injEq, Prod.mk.injEq] at h
        obtain ⟨rfl, rfl⟩ := h
        refine ⟨List.mem_cons_of_mem _ hmem, hval, ?_⟩
        intro x hx
        rcases List.mem_cons.mp hx with rfl | hx2
        · exact le_of_lt h2
        · exact hall x hx2
      · rw [if_neg h2] at h
        simp only [Option.some.injEq, Prod.mk.injEq] at h
        obtain ⟨rfl, rfl⟩ := h
        refine ⟨List.mem_cons_self _ _, rfl, ?_⟩
        intro x hx
        rcases List.mem_cons.mp hx with rfl | hx2
        · exact le_refl _
        · exact le_trans (not_lt.mp h2) (hall x hx2)

theorem satOBB_some_char (A B : OBB) (v : Vec3) (h : satOBB A B = some v) :
    ∃ m bx, firstMinAx A B (keepAxes (obbAxes A ++ obbAxes B)) = some (m, bx) ∧
      (∀ ax ∈ keepAxes (obbAxes A ++ obbAxes B), 0 < overlapOn A B ax) ∧
      v = Vec3.smul m (if (A.center.sub B.center).dot bx.normalize < 0
        then bx.normalize.neg else bx.normalize) := by
  unfold satOBB at h
  cases hL : satLoop A B (obbAxes A ++ obbAxes B) none with
  | none =>
    rw [hL] at h
    simp at h
  | some o =>
    obtain ⟨hall, ho⟩ := (satLoop_eq_some_iff A B _ none o).mp hL
    rw [foldl_satStep_none] at ho
    cases o with
    | none =>
      rw [hL] at h
      simp at h
    | some p =>
      obtain ⟨mo, ax⟩ := p
      rw [hL] at h
      dsimp only at h
      cases F : firstMinAx A B (keepAxes (obbAxes A ++ obbAxes B)) with
      | none =>
        rw [F] at ho
        simp at ho
      | some q =>
        obtain ⟨m, bx⟩ := q
        rw [F] at ho
        simp only [Option.map_some', Option.some.injEq, Prod.mk.injEq] at ho
        obtain ⟨h1, h2⟩ := ho
        subst h1
        subst h2
        refine ⟨mo, bx, rfl, hall, ?_⟩
        simp only [Option.some.injEq] at h
        exact h.symm

theorem satOBB_eq_satOBBspec (A B : OBB) : satOBB A B = satOBBspec A B := by
  unfold satOBB satOBBspec
  by_cases hall : ∀ ax ∈ keepAxes (obbAxes A ++ obbAxes B), 0 < overlapOn A B ax
  · have hL : satLoop A B (obbAxes A ++ obbAxes B) none =
        some ((keepAxes (obbAxes A ++ obbAxes B)).foldl (satStep A B) none) :=
      (satLoop_eq_some_iff A B _ none _).mpr ⟨hall, rfl⟩
    rw [hL, foldl_satStep_none, if_pos hall]
    cases F : firstMinAx A B (keepAxes (obbAxes A ++ obbAxes B)) with
    | none => simp
    | some p =>
      obtain ⟨m, bx⟩ := p
      simp
  · rw [if_neg hall]
    cases hL : satLoop A B (obbAxes A ++ obbAxes B) none with
    | none => simp
    | some o =>
      exact absurd ((satLoop_eq_some_iff A B _ none o).mp hL).1 hall

/-- C1: when satOBB reports an overlap, the result agrees with the
    specification's construction (smallest positive overlap among the
    non-negligible candidate axes, ties broken by enumeration order, the
    tie-break axis normalized, scaled by the minimal overlap, and negated
    exactly when its dot product with the center-to-center vector from B to A
    is negative); moreover the MTV magnitude equals the minimal overlap, so
    for axis-aligned boxes whose smallest overlap is on one axis it equals
    the overlap on that axis. -/
theorem satOBB_mtv_characterization (A B : OBB) :
    satOBB A B = satOBBspec A B ∧
    ∀ v, satOBB A B = some v →
      ∃ bx ∈ keepAxes (obbAxes A ++ obbAxes B),
        v.length = overlapOn A B bx ∧
        ∀ a ∈ keepAxes (obbAxes A ++ obbAxes B),
          overlapOn A B bx ≤ overlapOn A B a := by
  refine ⟨satOBB_eq_satOBBspec A B, ?_⟩
  intro v h
  obtain ⟨m, bx, hF, hall, hv⟩ := satOBB_some_char A B v h
  obtain ⟨hmem, hval, hmin⟩ := firstMinAx_char A B _ m bx hF
  have hkeep := keepAxes_mem hmem
  have hSqNe : bx.lengthSq ≠ 0 := by
    intro h0
    exact hkeep.2 (h0 ▸ obbEps_pos)
  have hnrm : bx.normalize.length = 1 := bx.length_normalize hSqNe
  have hmpos : 0 < m := hval ▸ hall bx hmem
  refine ⟨bx, hmem, ?_, fun a ha => hval ▸ hmin a ha⟩
  rw [hv]
  by_cases hs : (A.center.sub B.center).dot bx.normalize < 0
  · rw [if_pos hs, Vec3.length_smul, Vec3.length_neg, hnrm, mul_one,
      abs_of_pos hmpos, hval]
  · rw [if_neg hs, Vec3.length_smul, hnrm, mul_one, abs_of_pos hmpos, hval]

theorem normalize_unitX : Vec3.normalize ⟨1, 0, 0⟩ = ⟨1, 0, 0⟩ := by
  unfold Vec3.normalize Vec3.length Vec3.lengthSq Vec3.dot Vec3.smul
  norm_num [Real.sqrt_one]

theorem normalize_unitY : Vec3.normalize ⟨0, 1, 0⟩ = ⟨0, 1, 0⟩ := by
  unfold Vec3.normalize Vec3.length Vec3.lengthSq Vec3.dot Vec3.smul
  norm_num [Real.sqrt_one]

theorem normalize_unitZ : Vec3.normalize ⟨0, 0, 1⟩ = ⟨0, 0, 1⟩ := by
  unfold Vec3.normalize Vec3.length Vec3.lengthSq Vec3.dot Vec3.smul
  norm_num [Real.sqrt_one]

theorem satOBB_cBox_eval : satOBB cBoxA cBoxB = some ⟨-(1 / 5), 0, 0⟩ := by
  unfold satOBB
  norm_num [satLoop, satStep, obbAxes, OBB.axisX, OBB.axisY, OBB.axisZ,
    cBoxA, cBoxB, idMat3, overlapOn, projectOBB, Vec3.dot, Vec3.lengthSq,
    obbEps, normalize_unitX, normalize_unitY, normalize_unitZ, Vec3.sub,
    Vec3.neg, Vec3.smul, min_def, max_def]

theorem satOBB_mtv_characterization_witness :
    ∃ bx ∈ keepAxes (obbAxes cBoxA ++ obbAxes cBoxB),
      (Vec3.mk (-(1 / 5)) 0 0).length = overlapOn cBoxA cBoxB bx ∧
      ∀ a ∈ keepAxes (obbAxes cBoxA ++ obbAxes cBoxB),
        overlapOn cBoxA cBoxB bx ≤ overlapOn cBoxA cBoxB a :=
  (satOBB_mtv_characterization cBoxA cBoxB).2 _ satOBB_cBox_eval

/-- C2: if some tested face-normal axis of non-negligible length gives the two
    boxes a scalar projection overlap of at most zero, satOBB returns none. -/
theorem satOBB_separating_axis_none (A B : OBB)
    (h : ∃ ax ∈ obbAxes A ++ obbAxes B,
      ¬ ax.lengthSq < obbEps ∧ overlapOn A B ax ≤ 0) :
    satOBB A B = none := by
  obtain ⟨ax, hmem, hbig, hov⟩ := h
  cases hs : satOBB A B with
  | none => rfl
  | some v =>
    obtain ⟨m, bx, hF, hall, hv⟩ := satOBB_some_char A B v hs
    exact absurd (hall ax (mem_keepAxes hmem hbig)) (not_lt.mpr hov)

theorem satOBB_separating_axis_none_witness : satOBB cBoxA sBoxB = none :=
  satOBB_separating_axis_none cBoxA sBoxB
    ⟨⟨1, 0, 0⟩,
     by simp [obbAxes, OBB.axisX, OBB.axisY, OBB.axisZ, cBoxA, sBoxB, idMat3],
     by norm_num [Vec3.lengthSq, Vec3.dot, obbEps],
     by norm_num [overlapOn, projectOBB, Vec3.dot, obbAxes, OBB.axisX,
       OBB.axisY, OBB.axisZ, cBoxA, sBoxB, idMat3, min_def, max_def]⟩

/-- C9: every candidate axis below the negligibility threshold is skipped, so
    if all six axes are negligible satOBB returns none; and any returned MTV
    is a positive multiple of the unit normalization of some non-negligible
    candidate axis (so no zero-length vector is ever normalized and the
    result is well defined). -/
theorem satOBB_degenerate_axes_safe (A B : OBB) :
    ((∀ ax ∈ obbAxes A ++ obbAxes B, ax.lengthSq < obbEps) → satOBB A B = none) ∧
    ∀ v, satOBB A B = some v →
      ∃ ax ∈ obbAxes A ++ obbAxes B, ¬ ax.lengthSq < obbEps ∧
        ax.normalize.lengthSq = 1 ∧
        ∃ c, 0 < c ∧
          (v = Vec3.smul c ax.normalize ∨ v = Vec3.smul c ax.normalize.neg) := by
  constructor
  · intro hall
    have hk : keepAxes (obbAxes A ++ obbAxes B) = [] := keepAxes_eq_nil _ hall
    have hL : satLoop A B (obbAxes A ++ obbAxes B) none = some none := by
      refine (satLoop_eq_some_iff A B _ none none).mpr ?_
      rw [hk]
      exact ⟨by simp, rfl⟩
    unfold satOBB
    rw [hL]
  · intro v hs
    obtain ⟨m, bx, hF, hall, hv⟩ := satOBB_some_char A B v hs
    obtain ⟨hmem, hval, hmin⟩ := firstMinAx_char A B _ m bx hF
    have hkeep := keepAxes_mem hmem
    have hSqNe : bx.lengthSq ≠ 0 := fun h0 => hkeep.2 (h0 ▸ obbEps_pos)
    have hmpos : 0 < m := hval ▸ hall bx hmem
    refine ⟨bx, hkeep.1, hkeep.2, bx.lengthSq_normalize hSqNe, m, hmpos, ?_⟩
    by_cases hsg : (A.center.sub B.center).dot bx.normalize < 0
    · right
      rw [hv, if_pos hsg]
    · left
      rw [hv, if_neg hsg]

theorem satOBB_degenerate_axes_safe_witness :
    satOBB dBoxA dBoxA = none ∧
    ∃ ax ∈ obbAxes cBoxA ++ obbAxes cBoxB, ¬ ax.lengthSq < obbEps ∧
      ax.normalize.lengthSq = 1 ∧
      ∃ c, 0 < c ∧
        (Vec3.mk (-(1 / 5)) 0 0 = Vec3.smul c ax.normalize ∨
          Vec3.mk (-(1 / 5)) 0 0 = Vec3.smul c ax.normalize.neg) :=
  ⟨(satOBB_degenerate_axes_safe dBoxA dBoxA).1 (by
      norm_num [obbAxes, OBB.axisX, OBB.axisY, OBB.axisZ, dBoxA, zeroMat3,
        Vec3.lengthSq, Vec3.dot, obbEps, List.forall_mem_cons]),
   (satOBB_degenerate_axes_safe cBoxA cBoxB).2 _ satOBB_cBox_eval⟩

/-- C5 counterexample: emDead holds a destroyed-but-unpruned entity with id 5,
    yet getWithID 5 returns none rather than that entity, because getWithID
    filters on the alive flag. -/
theorem getWithID_destroyed_counterexample :
    (∃ e ∈ emDead.entities, e.id = 5 ∧ e.alive = false) ∧
    emDead.getWithID 5 = none := by
  constructor
  · exact ⟨_, List.mem_cons_self _ _, rfl, rfl⟩
  · rfl

/-- C5 (amended): for an entity destroyed during a tick but not yet pruned,
    getWithID on its id returns none (the lookup filters to active entities),
    while the entity itself is still present in the manager's raw entity list
    with its alive flag false. -/
theorem getWithID_destroyed (m : EntityManager) (e : Entity)
    (hmem : e ∈ m.entities) (_hdead : e.alive = false)
    (hall : ∀ e2 ∈ m.entities, e2.id = e.id → e2.alive = false) :
    m.getWithID e.id = none ∧ e ∈ m.getEntities := by
  refine ⟨?_, hmem⟩
  unfold EntityManager.getWithID
  rw [List.find?_eq_none]
  intro x hx
  simp only [Bool.and_eq_true, beq_iff_eq, not_and]
  intro hid
  rw [hall x hx hid]
  simp

theorem getWithID_destroyed_witness :
    emDead.getWithID 5 = none ∧
    ({ entDefault with id := 5, tag := "zombieEntity", alive := false } : Entity)
      ∈ emDead.getEntities :=
  getWithID_destroyed emDead
    { entDefault with id := 5, tag := "zombieEntity", alive := false }
    (List.mem_cons_self _ _) rfl
    (by
      intro e2 h2 hid
      rcases List.mem_singleton.mp h2 with rfl
      rfl)


theorem countP_zero_of_id_ne (l : List Entity) (N : ℕ)
    (h : ∀ y ∈ l, y.id ≠ N) :
    l.countP (fun y => y.id == N && y.alive) = 0 := by
  rw [List.countP_eq_zero]
  intro y hy
  simp only [Bool.and_eq_true, beq_iff_eq, not_and]
  intro hid
  exact absurd hid (h y hy)

theorem mapSum_mapAddToTag_ne (mp : List (String × List Entity)) (x : Entity)
    (N : ℕ) (hx : x.id ≠ N) :
    ((mapAddToTag mp x).map
      (fun kv => kv.2.countP (fun y => y.id == N && y.alive))).sum =
    (mp.map (fun kv => kv.2.countP (fun y => y.id == N && y.alive))).sum := by
  have hxc : ((x.id == N) && x.alive) = false := by
    simp [hx]
  unfold mapAddToTag
  by_cases h : mp.any (fun kv => kv.1 == x.tag) = true
  · rw [if_pos h, List.map_map]
    apply congrArg List.sum
    apply List.map_congr_left
    intro kv hkv
    by_cases hk : kv.1 = x.tag
    · simp [hk, List.countP_append, List.countP_cons, hxc]
    · simp [hk]
  · rw [if_neg h, List.map_append, List.sum_append]
    simp [List.countP_cons, hxc]

theorem mapSum_mapAddToTag_self (mp : List (String × List Entity)) (x : Entity)
    (N : ℕ) (hx : x.id = N) (hal : x.alive = true)
    (hkey : mp.countP (fun kv => kv.1 == x.tag) ≤ 1) :
    ((mapAddToTag mp x).map
      (fun kv => kv.2.countP (fun y => y.id == N && y.alive))).sum =
    (mp.map (fun kv => kv.2.countP (fun y => y.id == N && y.alive))).sum + 1 := by
  have hxc : ((x.id == N) && x.alive) = true := by
    simp [hx, hal]
  unfold mapAddToTag
  by_cases h : mp.any (fun kv => kv.1 == x.tag) = true
  · rw [if_pos h, List.map_map]
    have key_sum : ∀ (t : List (String × List Entity)),
        (t.map ((fun kv => kv.2.countP (fun y => y.id == N && y.alive)) ∘
          (fun kv => if (kv.1 == x.tag) = true then (kv.1, kv.2 ++ [x]) else kv))).sum =
        (t.map (fun kv => kv.2.countP (fun y => y.id == N && y.alive))).sum +
          t.countP (fun kv => kv.1 == x.tag) := by
      intro t
      induction t with
      | nil => rfl
      | cons a u ih =>
        by_cases hk : (a.1 == x.tag) = true
        · simp only [List.map_cons, List.sum_cons, ih, List.countP_cons, hk,
            if_pos hk, Function.comp_apply, List.countP_append]
          simp [hxc]
          omega
        · simp only [List.map_cons, List.sum_cons, ih, List.countP_cons, hk,
            if_neg hk, Function.comp_apply]
          simp [hk]
          omega
    rw [key_sum]
    have hpos : 0 < mp.countP (fun kv => kv.1 == x.tag) := by
      rw [List.countP_pos_iff]
      obtain ⟨kv, hkv, hp⟩ := List.any_eq_true.mp h
      exact ⟨kv, hkv, hp⟩
    omega
  · rw [if_neg h, List.map_append, List.sum_append]
    simp [List.countP_cons, hxc]

theorem countKey_mapAddToTag_le (mp : List (String × List Entity)) (x : Entity)
    (k : String) (h : mp.countP (fun kv => kv.1 == k) ≤ 1) :
    (mapAddToTag mp x).countP (fun kv => kv.1 == k) ≤ 1 := by
  unfold mapAddToTag
  by_cases ha : mp.any (fun kv => kv.1 == x.tag) = true
  · rw [if_pos ha]
    have hsame : ∀ t : List (String × List Entity),
        (t.map (fun kv =>
          if (kv.1 == x.tag) = true then (kv.1, kv.2 ++ [x]) else kv)).countP
            (fun kv => kv.1 == k) = t.countP (fun kv => kv.1 == k) := by
      intro t
      induction t with
      | nil => rfl
      | cons a u ih =>
        simp only [List.map_cons, List.countP_cons]
        rw [ih]
        by_cases hk : a.1 = x.tag
        · simp [hk]
        · simp [hk]
    rw [hsame]
    exact h
  · rw [if_neg ha, List.countP_append]
    by_cases hk : (x.tag == k) = true
    · have h0 : mp.countP (fun kv => kv.1 == k) = 0 := by
        rw [List.countP_eq_zero]
        intro kv hkv hc
        have h1 : kv.1 = k := beq_iff_eq.mp hc
        have h2 : x.tag = k := beq_iff_eq.mp hk
        refine absurd (List.any_eq_true.mpr ⟨kv, hkv, ?_⟩) ha
        rw [h1, h2]
        exact beq_self_eq_true k
      simp [h0, List.countP_cons, hk]
    · simp [List.countP_cons, hk]
      exact h

theorem foldAdd_sum_ne (N : ℕ) :
    ∀ (xs : List Entity) (mp : List (String × List Entity)),
      (∀ x ∈ xs, x.id ≠ N) →
      ((xs.foldl mapAddToTag mp).map
        (fun kv => kv.2.countP (fun y => y.id == N && y.alive))).sum =
      (mp.map (fun kv => kv.2.countP (fun y => y.id == N && y.alive))).sum := by
  intro xs
  induction xs with
  | nil =>
    intro mp _
    rfl
  | cons x t ih =>
    intro mp h
    rw [List.foldl_cons, ih _ (fun y hy => h y (List.mem_cons_of_mem _ hy)),
      mapSum_mapAddToTag_ne _ _ _ (h x (List.mem_cons_self _ _))]

theorem foldAdd_key_le (k : String) :
    ∀ (xs : List Entity) (mp : List (String × List Entity)),
      mp.countP (fun kv => kv.1 == k) ≤ 1 →
      (xs.foldl mapAddToTag mp).countP (fun kv => kv.1 == k) ≤ 1 := by
  intro xs
  induction xs with
  | nil =>
    intro mp h
    exact h
  | cons x t ih =>
    intro mp h
    rw [List.foldl_cons]
    exact ih _ (countKey_mapAddToTag_le mp x k h)

theorem mapSum_filter_alive (mp : List (String × List Entity)) (N : ℕ) :
    ((mp.map (fun kv => (kv.1, kv.2.filter (fun y => y.alive)))).map
      (fun kv => kv.2.countP (fun y => y.id == N))).sum =
    (mp.map (fun kv => kv.2.countP (fun y => y.id == N && y.alive))).sum := by
  rw [List.map_map]
  apply congrArg List.sum
  apply List.map_congr_left
  intro kv _
  simp only [Function.comp_apply]
  rw [List.countP_filter]

/-- C6: addEntity returns a usable (alive, freshly numbered) handle at once;
    the buffered entity is invisible to every getWithComponentName query until
    the next flush, and that flush (EntityManager.update) puts it into the
    live list exactly once and into the tag index exactly once. -/
theorem addEntity_flush_exactly_once (m : EntityManager) (tg : String)
    (hfresh : ∀ e2 ∈ m.entities ++ m.entitiesToAdd, e2.id ≠ m.entityCount)
    (hmapfresh : ∀ kv ∈ m.entityMap, ∀ y ∈ kv.2, y.id ≠ m.entityCount)
    (hkey : m.entityMap.countP (fun kv => kv.1 == tg) ≤ 1) :
    (m.addEntity tg).1.alive = true ∧
    (m.addEntity tg).1.id = m.entityCount ∧
    (∀ (names : List CompName),
      ∀ e2 ∈ (m.addEntity tg).2.getWithComponentName names, e2.id ≠ m.entityCount) ∧
    ((m.addEntity tg).2.update.entities.countP
      (fun y => y.id == m.entityCount) = 1) ∧
    (((m.addEntity tg).2.update.entityMap.map
      (fun kv => kv.2.countP (fun y => y.id == m.entityCount))).sum = 1) := by
  refine ⟨rfl, rfl, ?_, ?_, ?_⟩
  · intro names e2 h2
    simp only [EntityManager.getWithComponentName, EntityManager.addEntity,
      List.mem_filter] at h2
    exact hfresh e2 (List.mem_append_left _ h2.1)
  · show ((m.entities ++ (m.entitiesToAdd ++
        [{ entDefault with id := m.entityCount, tag := tg }])).filter
          (fun (y : Entity) => y.alive)).countP
        (fun (y : Entity) => y.id == m.entityCount) = 1
    rw [List.countP_filter, List.countP_append, List.countP_append]
    rw [countP_zero_of_id_ne m.entities _
        (fun y hy => hfresh y (List.mem_append_left _ hy)),
      countP_zero_of_id_ne m.entitiesToAdd _
        (fun y hy => hfresh y (List.mem_append_right _ hy))]
    simp [List.countP_cons, entDefault]
  · show ((((m.entitiesToAdd ++
        [{ entDefault with id := m.entityCount, tag := tg }]).foldl mapAddToTag
          m.entityMap).map
        (fun (kv : String × List Entity) =>
          (kv.1, kv.2.filter (fun (y : Entity) => y.alive)))).map
      (fun (kv : String × List Entity) =>
        kv.2.countP (fun (y : Entity) => y.id == m.entityCount))).sum = 1
    rw [mapSum_filter_alive]
    rw [List.foldl_append, List.foldl_cons, List.foldl_nil]
    rw [mapSum_mapAddToTag_self _ _ m.entityCount rfl rfl
      (foldAdd_key_le tg m.entitiesToAdd m.entityMap hkey)]
    rw [foldAdd_sum_ne m.entityCount m.entitiesToAdd m.entityMap
      (fun y hy => hfresh y (List.mem_append_right _ hy))]
    have h0 : (m.entityMap.map
        (fun kv => kv.2.countP (fun y => y.id == m.entityCount && y.alive))).sum = 0 := by
      apply List.sum_eq_zero
      intro i hi
      obtain ⟨kv, hkv, rfl⟩ := List.mem_map.mp hi
      exact countP_zero_of_id_ne _ _ (hmapfresh kv hkv)
    rw [h0]

theorem addEntity_flush_exactly_once_witness :
    ((emEmpty.addEntity "zombieEntity").2.update.entities.countP
      (fun y => y.id == emEmpty.entityCount) = 1) ∧
    (((emEmpty.addEntity "zombieEntity").2.update.entityMap.map
      (fun kv => kv.2.countP (fun y => y.id == emEmpty.entityCount))).sum = 1) := by
  have h := addEntity_flush_exactly_once emEmpty "zombieEntity"
    (by intro e2 h2; simp [emEmpty] at h2)
    (by intro kv hkv; simp [emEmpty] at hkv)
    (by simp [emEmpty])
  exact ⟨h.2.2.2.1, h.2.2.2.2⟩

theorem setAdd_mem_self (l : List ℕ) (o : ℕ) : o ∈ setAdd l o := by
  unfold setAdd
  by_cases h : o ∈ l
  · rw [if_pos h]
    exact h
  · rw [if_neg h]
    exact List.mem_append_right _ (List.mem_singleton.mpr rfl)

theorem setAdd_mem_of_mem (l : List ℕ) (x o : ℕ) (h : x ∈ l) : x ∈ setAdd l o := by
  unfold setAdd
  by_cases h2 : o ∈ l
  · rw [if_pos h2]
    exact h
  · rw [if_neg h2]
    exact List.mem_append_left _ h

theorem foldl_setAdd_mem_of_mem (l : List ℕ) (acc : List ℕ) (x : ℕ)
    (h : x ∈ acc) : x ∈ l.foldl setAdd acc := by
  induction l generalizing acc with
  | nil => exact h
  | cons y t ih => exact ih _ (setAdd_mem_of_mem _ x y h)

theorem foldl_setAdd_mem (l : List ℕ) (acc : List ℕ) (x : ℕ) (h : x ∈ l) :
    x ∈ l.foldl setAdd acc := by
  induction l generalizing acc with
  | nil => simp at h
  | cons y t ih =>
    rcases List.mem_cons.mp h with rfl | h2
    · exact foldl_setAdd_mem_of_mem t _ x (setAdd_mem_self acc x)
    · exact ih _ h2

theorem cellsBucket_append_single (cs : List ((ℤ × ℤ) × List ℕ)) (k2 k : ℤ × ℤ)
    (l : List ℕ) (x : ℕ) (h : x ∈ cellsBucket cs k) :
    x ∈ cellsBucket (cs ++ [(k2, l)]) k := by
  unfold cellsBucket at h ⊢
  cases hf : cs.find? (fun kv => kv.1 == k) with
  | none =>
    rw [hf] at h
    simp at h
  | some kv =>
    rw [hf] at h
    rw [List.find?_append, hf]
    exact h

theorem cellsBucket_cons (kv : (ℤ × ℤ) × List ℕ) (t : List ((ℤ × ℤ) × List ℕ))
    (k : ℤ × ℤ) :
    cellsBucket (kv :: t) k =
      if (kv.1 == k) = true then kv.2 else cellsBucket t k := by
  unfold cellsBucket
  cases hk : kv.1 == k <;> simp [List.find?_cons, hk]

theorem cellsBucket_append_self (k : ℤ × ℤ) (l : List ℕ) :
    ∀ t : List ((ℤ × ℤ) × List ℕ),
      (t.any (fun kv => kv.1 == k)) = false → cellsBucket (t ++ [(k, l)]) k = l := by
  intro t
  induction t with
  | nil =>
    intro _
    simp [cellsBucket, List.find?]
  | cons kv t ih =>
    intro h
    rw [List.any_cons] at h
    have hkf : (kv.1 == k) = false := by
      cases hck : kv.1 == k
      · rfl
      · rw [hck] at h
        simp at h
    have hatf : (t.any (fun kv => kv.1 == k)) = false := by
      rw [hkf] at h
      simpa using h
    rw [List.cons_append, cellsBucket_cons]
    simp only [hkf, Bool.false_eq_true, if_false]
    exact ih hatf

theorem cellsBucket_map_upd (k2 : ℤ × ℤ) (o : ℕ) :
    ∀ (cs : List ((ℤ × ℤ) × List ℕ)) (k : ℤ × ℤ) (x : ℕ),
      x ∈ cellsBucket cs k →
      x ∈ cellsBucket (cs.map (fun kv =>
        if (kv.1 == k2) = true then (kv.1, setAdd kv.2 o) else kv)) k := by
  intro cs
  induction cs with
  | nil =>
    intro k x h
    simp [cellsBucket] at h
  | cons kv t ih =>
    intro k x h
    rw [cellsBucket_cons] at h
    rw [List.map_cons]
    by_cases hk2 : (kv.1 == k2) = true
    · rw [if_pos hk2, cellsBucket_cons]
      dsimp only
      by_cases hk : (kv.1 == k) = true
      · rw [if_pos hk] at h
        rw [if_pos hk]
        exact setAdd_mem_of_mem _ x o h
      · rw [if_neg hk] at h
        rw [if_neg hk]
        exact ih k x h
    · rw [if_neg hk2, cellsBucket_cons]
      by_cases hk : (kv.1 == k) = true
      · rw [if_pos hk] at h
        rw [if_pos hk]
        exact h
      · rw [if_neg hk] at h
        rw [if_neg hk]
        exact ih k x h

theorem cellsBucket_cellsAdd_of_mem (cs : List ((ℤ × ℤ) × List ℕ))
    (k2 k : ℤ × ℤ) (o x : ℕ) (h : x ∈ cellsBucket cs k) :
    x ∈ cellsBucket (cellsAdd cs k2 o) k := by
  unfold cellsAdd
  by_cases ha : cs.any (fun kv => kv.1 == k2) = true
  · rw [if_pos ha]
    exact cellsBucket_map_upd k2 o cs k x h
  · rw [if_neg ha]
    exact cellsBucket_append_single cs k2 k [o] x h

theorem cellsBucket_cellsAdd_self :
    ∀ (cs : List ((ℤ × ℤ) × List ℕ)) (k : ℤ × ℤ) (o : ℕ),
      o ∈ cellsBucket (cellsAdd cs k o) k := by
  intro cs
  induction cs with
  | nil =>
    intro k o
    unfold cellsAdd
    simp only [List.any_nil]
    rw [if_neg (by exact Bool.false_ne_true)]
    rw [List.nil_append, cellsBucket_cons]
    simp
  | cons kv t ih =>
    intro k o
    unfold cellsAdd
    by_cases hk : (kv.1 == k) = true
    · have ha : ((kv :: t).any (fun kv => kv.1 == k)) = true :=
        List.any_eq_true.mpr ⟨kv, List.mem_cons_self _ _, hk⟩
      rw [if_pos ha, List.map_cons, if_pos hk, cellsBucket_cons]
      dsimp only
      rw [if_pos hk]
      exact setAdd_mem_self _ o
    · have hkf : (kv.1 == k) = false := by
        cases hck : kv.1 == k
        · rfl
        · exact absurd hck hk
      by_cases hat : (t.any (fun kv => kv.1 == k)) = true
      · have ha : ((kv :: t).any (fun kv => kv.1 == k)) = true := by
          rw [List.any_cons, hat, Bool.or_true]
        rw [if_pos ha, List.map_cons, if_neg hk, cellsBucket_cons]
        rw [if_neg hk]
        have h2 := ih k o
        unfold cellsAdd at h2
        rw [if_pos hat] at h2
        exact h2
      · have hatf : (t.any (fun kv => kv.1 == k)) = false := by
          cases hck : t.any (fun kv => kv.1 == k)
          · rfl
          · exact absurd hck hat
        have ha : ((kv :: t).any (fun kv => kv.1 == k)) = false := by
          rw [List.any_cons, hkf, hatf]
          rfl
        rw [if_neg (by rw [ha]; exact Bool.false_ne_true)]
        rw [List.cons_append, cellsBucket_cons]
        simp only [hkf, Bool.false_eq_true, if_false]
        rw [cellsBucket_append_self k [o] t hatf]
        exact List.mem_singleton.mpr rfl

theorem mem_intRange_self (lo hi : ℤ) (h : lo ≤ hi) : lo ∈ intRange lo hi := by
  unfold intRange
  have h0 : 0 ∈ List.range (hi + 1 - lo).toNat := by
    rw [List.mem_range]
    omega
  have h1 := List.mem_map_of_mem (fun k : ℕ => lo + (k : ℤ)) h0
  have h2 : lo + ((0 : ℕ) : ℤ) = lo := by simp
  dsimp only at h1
  rw [h2] at h1
  exact h1

theorem worldToCell_le (cs : ℚ) (a b : ℚ) (hcs : 0 < cs) (h : a ≤ b) :
    worldToCell cs a ≤ worldToCell cs b := by
  unfold worldToCell
  exact Int.floor_le_floor ((div_le_div_iff_of_pos_right hcs).mpr h)

theorem mem_cellKeys_min (cs : ℚ) (b : Box3Q) (hcs : 0 < cs)
    (hx : b.min.x ≤ b.max.x) (hz : b.min.z ≤ b.max.z) :
    (worldToCell cs b.min.x, worldToCell cs b.min.z) ∈ cellKeys cs b := by
  unfold cellKeys boundsToCell
  dsimp only
  refine List.mem_flatMap.mpr ⟨worldToCell cs b.min.x,
    mem_intRange_self _ _ (worldToCell_le cs _ _ hcs (by linarith)), ?_⟩
  exact List.mem_map.mpr ⟨worldToCell cs b.min.z,
    mem_intRange_self _ _ (worldToCell_le cs _ _ hcs (by linarith)), rfl⟩

theorem foldl_cellsAdd_preserve (o x : ℕ) (k : ℤ × ℤ) :
    ∀ (keys : List (ℤ × ℤ)) (cs : List ((ℤ × ℤ) × List ℕ)),
      x ∈ cellsBucket cs k →
      x ∈ cellsBucket (keys.foldl (fun cs key => cellsAdd cs key o) cs) k := by
  intro keys
  induction keys with
  | nil =>
    intro cs h
    exact h
  | cons k1 t ih =>
    intro cs h
    rw [List.foldl_cons]
    exact ih _ (cellsBucket_cellsAdd_of_mem cs k1 k o x h)

theorem foldl_cellsAdd_mem (o : ℕ) (k : ℤ × ℤ) :
    ∀ (keys : List (ℤ × ℤ)) (cs : List ((ℤ × ℤ) × List ℕ)), k ∈ keys →
      o ∈ cellsBucket (keys.foldl (fun cs key => cellsAdd cs key o) cs) k := by
  intro keys
  induction keys with
  | nil =>
    intro cs h
    simp at h
  | cons k1 t ih =>
    intro cs h
    rw [List.foldl_cons]
    rcases List.mem_cons.mp h with rfl | h2
    · exact foldl_cellsAdd_preserve o o k t _ (cellsBucket_cellsAdd_self cs k o)
    · exact ih _ h2

theorem insert_self_bucket (g : SpatialGrid) (o : ℕ) (b : Box3Q) (k : ℤ × ℤ)
    (hk : k ∈ cellKeys g.cellSize b) :
    o ∈ cellsBucket (g.insert o b).cells k :=
  foldl_cellsAdd_mem o k _ g.cells hk

theorem insert_preserve_bucket (g : SpatialGrid) (o2 : ℕ) (b2 : Box3Q)
    (x : ℕ) (k : ℤ × ℤ) (h : x ∈ cellsBucket g.cells k) :
    x ∈ cellsBucket (g.insert o2 b2).cells k :=
  foldl_cellsAdd_preserve o2 x k _ g.cells h

theorem foldl_insert_preserve (x : ℕ) (k : ℤ × ℤ) :
    ∀ (items : List (ℕ × Box3Q)) (g : SpatialGrid),
      x ∈ cellsBucket g.cells k →
      x ∈ cellsBucket
        ((items.foldl (fun g ob => g.insert ob.1 ob.2) g)).cells k := by
  intro items
  induction items with
  | nil =>
    intro g h
    exact h
  | cons ob t ih =>
    intro g h
    rw [List.foldl_cons]
    exact ih _ (insert_preserve_bucket g ob.1 ob.2 x k h)

theorem foldl_insert_cellSize :
    ∀ (items : List (ℕ × Box3Q)) (g : SpatialGrid),
      (items.foldl (fun g ob => g.insert ob.1 ob.2) g).cellSize = g.cellSize := by
  intro items
  induction items with
  | nil =>
    intro g
    rfl
  | cons ob t ih =>
    intro g
    rw [List.foldl_cons]
    exact ih _

theorem foldl_query_preserve (g : SpatialGrid) (x : ℕ) :
    ∀ (keys : List (ℤ × ℤ)) (acc : List ℕ), x ∈ acc →
      x ∈ keys.foldl (fun acc key => (cellBucket g key).foldl setAdd acc) acc := by
  intro keys
  induction keys with
  | nil =>
    intro acc h
    exact h
  | cons k1 t ih =>
    intro acc h
    rw [List.foldl_cons]
    exact ih _ (foldl_setAdd_mem_of_mem _ acc x h)

theorem query_of_bucket (g : SpatialGrid) (b : Box3Q) (x : ℕ) (k : ℤ × ℤ)
    (hk : k ∈ cellKeys g.cellSize b) (h : x ∈ cellsBucket g.cells k) :
    x ∈ g.query b := by
  unfold SpatialGrid.query
  have main : ∀ (keys : List (ℤ × ℤ)) (acc : List ℕ), k ∈ keys →
      x ∈ keys.foldl (fun acc key => (cellBucket g key).foldl setAdd acc) acc := by
    intro keys
    induction keys with
    | nil =>
      intro acc hmem
      simp at hmem
    | cons k1 t ih =>
      intro acc hmem
      rw [List.foldl_cons]
      rcases List.mem_cons.mp hmem with rfl | h2
      · exact foldl_query_preserve g x t _ (foldl_setAdd_mem _ acc x h)
      · exact ih _ h2
  exact main _ [] hk

/-- C7: after inserting any finite set of objects into a cleared spatial
    grid, querying with an inserted object's own bounds always returns a
    candidate set containing that object. -/
theorem spatialGrid_roundTrip (items : List (ℕ × Box3Q)) (cs : ℚ) (o : ℕ)
    (b : Box3Q) (hcs : 0 < cs) (hmem : (o, b) ∈ items)
    (hx : b.min.x ≤ b.max.x) (hz : b.min.z ≤ b.max.z) :
    o ∈ (items.foldl (fun g ob => g.insert ob.1 ob.2) (gridEmpty cs)).query b := by
  obtain ⟨pre, post, rfl⟩ := List.append_of_mem hmem
  rw [List.foldl_append, List.foldl_cons]
  have hsz1 : (pre.foldl (fun g ob => g.insert ob.1 ob.2) (gridEmpty cs)).cellSize
      = cs := foldl_insert_cellSize pre (gridEmpty cs)
  have hk0 : (worldToCell cs b.min.x, worldToCell cs b.min.z) ∈ cellKeys cs b :=
    mem_cellKeys_min cs b hcs hx hz
  have h1 : o ∈ cellsBucket
      (((pre.foldl (fun g ob => g.insert ob.1 ob.2) (gridEmpty cs)).insert
        o b).cells) (worldToCell cs b.min.x, worldToCell cs b.min.z) :=
    insert_self_bucket _ o b _ (by rw [hsz1]; exact hk0)
  have h2 := foldl_insert_preserve o
    (worldToCell cs b.min.x, worldToCell cs b.min.z) post _ h1
  apply query_of_bucket _ b o (worldToCell cs b.min.x, worldToCell cs b.min.z)
    ?_ h2
  rw [foldl_insert_cellSize post _]
  have h3 : ((pre.foldl (fun g ob => g.insert ob.1 ob.2) (gridEmpty cs)).insert
      o b).cellSize = cs := hsz1
  rw [h3]
  exact hk0

theorem spatialGrid_roundTrip_witness :
    2 ∈ (([((1 : ℕ), (⟨⟨0, 0, 0⟩, ⟨3, 2, 3⟩⟩ : Box3Q)),
          ((2 : ℕ), (⟨⟨-5, 0, -5⟩, ⟨-1, 1, -1⟩⟩ : Box3Q))]).foldl
        (fun g ob => g.insert ob.1 ob.2) (gridEmpty 4)).query
      (⟨⟨-5, 0, -5⟩, ⟨-1, 1, -1⟩⟩ : Box3Q) :=
  spatialGrid_roundTrip _ 4 2 _ (by norm_num) (by simp) (by norm_num)
    (by norm_num)

theorem resetEnt_alive (e : Entity) : (resetEnt e).alive = e.alive := by
  unfold resetEnt
  split <;> rfl

theorem resetEnt_id (e : Entity) : (resetEnt e).id = e.id := by
  unfold resetEnt
  split <;> rfl

theorem resetEnt_combustible (e : Entity) :
    (resetEnt e).combustible = e.combustible := by
  unfold resetEnt
  split <;> rfl

theorem resetEnt_health (e : Entity) : (resetEnt e).health = e.health := by
  unfold resetEnt
  split <;> rfl

theorem resetEnt_col (e : Entity) : (resetEnt e).col = e.col := by
  unfold resetEnt
  split <;> rfl

theorem resetEnt_pos_isSome (e : Entity) :
    (resetEnt e).pos.isSome = e.pos.isSome := by
  unfold resetEnt
  split <;> simp

theorem getOBB_resetEnt (e : Entity) : getOBB (resetEnt e) = getOBB e := by
  unfold resetEnt getOBB
  split
  · cases hp : e.pos <;> simp [hp]
  · rfl

theorem resolvePair_preserves (a b : Entity) (mtv : Vec3) :
    (resolvePair a b mtv).1.alive = a.alive ∧
    (resolvePair a b mtv).1.health = a.health ∧
    (resolvePair a b mtv).2.alive = b.alive ∧
    (resolvePair a b mtv).2.health = b.health := by
  unfold resolvePair
  split_ifs <;> simp [updPosition, setGroundTrue, zeroVelY]

theorem pairProcess_combust_first (a b : Entity) (mtv : Vec3)
    (hca : a.combustible = true) (hcb : b.combustible = false) (hid : b.id ≠ 0) :
    (pairProcess a b mtv).1.alive = false ∧
    (pairProcess a b mtv).1.health = a.health ∧
    (pairProcess a b mtv).2.alive = b.alive ∧
    (pairProcess a b mtv).2.health =
      b.health.map (fun h => { h with hp := h.hp - 30 }) := by
  unfold pairProcess
  rw [if_neg (by
    intro hcon
    exact hid hcon.2)]
  rw [if_pos hca, if_pos hca]
  rw [if_neg (by
    intro hcon
    have : b.combustible = true := hcon.1
    rw [hcb] at this
    cases this)]
  rw [if_neg (by
    show ¬ (damageIfHealth b).combustible = true
    intro hcon
    have hdc : (damageIfHealth b).combustible = b.combustible := rfl
    rw [hdc, hcb] at hcon
    cases hcon),
    if_neg (by
    show ¬ (damageIfHealth b).combustible = true
    intro hcon
    have hdc : (damageIfHealth b).combustible = b.combustible := rfl
    rw [hdc, hcb] at hcon
    cases hcon)]
  obtain ⟨h1, h2, h3, h4⟩ :=
    resolvePair_preserves (Entity.destroy a) (damageIfHealth b) mtv
  exact ⟨h1, h2, h3, h4⟩

theorem pairProcess_combust_both (a b : Entity) (mtv : Vec3)
    (hca : a.combustible = true) (hcb : b.combustible = true)
    (hida : a.id ≠ 0) (hidb : b.id ≠ 0) :
    (pairProcess a b mtv).1.alive = false ∧
    (pairProcess a b mtv).2.alive = false ∧
    (pairProcess a b mtv).1.health =
      a.health.map (fun h => { h with hp := h.hp - 30 }) ∧
    (pairProcess a b mtv).2.health =
      b.health.map (fun h => { h with hp := h.hp - 30 }) := by
  unfold pairProcess
  rw [if_neg (by
    intro hcon
    exact hidb hcon.2)]
  rw [if_pos hca, if_pos hca]
  rw [if_neg (by
    intro hcon
    exact hida hcon.2)]
  rw [if_pos (show (damageIfHealth b).combustible = true from hcb),
    if_pos (show (damageIfHealth b).combustible = true from hcb)]
  obtain ⟨h1, h2, h3, h4⟩ := resolvePair_preserves
    (damageIfHealth (Entity.destroy a))
    (Entity.destroy (damageIfHealth b)) mtv
  exact ⟨h1.trans rfl, h3.trans rfl, h2.trans rfl, h4.trans rfl⟩

theorem collidables_pair (x y : Entity)
    (hx : (x.alive && x.col.isSome && x.pos.isSome) = true)
    (hy : (y.alive && y.col.isSome && y.pos.isSome) = true) :
    collidables [x, y] = [0, 1] := by
  unfold collidables
  have hlen : ([x, y] : List Entity).length = 2 := rfl
  rw [hlen]
  have hr : List.range 2 = [0, 1] := rfl
  rw [hr]
  rw [List.filter_cons, List.filter_cons, List.filter_nil]
  have h0 : (([x, y].getD 0 entDefault).alive
      && ([x, y].getD 0 entDefault).col.isSome
      && ([x, y].getD 0 entDefault).pos.isSome) = true := hx
  have h1 : (([x, y].getD 1 entDefault).alive
      && ([x, y].getD 1 entDefault).col.isSome
      && ([x, y].getD 1 entDefault).pos.isSome) = true := hy
  rw [if_pos h0, if_pos h1]

theorem sCollision_pair_eval (a b : Entity) (mtv : Vec3)
    (ha : a.alive = true) (hb : b.alive = true)
    (hap : a.pos.isSome = true) (hac : a.col.isSome = true)
    (hbp : b.pos.isSome = true) (hbc : b.col.isSome = true)
    (hmtv : satOBB (getOBB a) (getOBB b) = some mtv) :
    sCollision [a, b] = [(pairProcess (resetEnt a) (resetEnt b) mtv).1,
                        (pairProcess (resetEnt a) (resetEnt b) mtv).2] := by
  unfold sCollision collisionPairsPass resetGrounded
  rw [List.map_cons, List.map_cons, List.map_nil]
  rw [collidables_pair (resetEnt a) (resetEnt b)
    (by rw [resetEnt_alive, resetEnt_col, resetEnt_pos_isSome, ha, hac, hap]; rfl)
    (by rw [resetEnt_alive, resetEnt_col, resetEnt_pos_isSome, hb, hbc, hbp]; rfl)]
  have hop : orderedPairs [0, 1] = [(0, 1)] := rfl
  rw [hop, List.foldl_cons, List.foldl_nil]
  unfold applyPair
  dsimp only
  have hga : ([resetEnt a, resetEnt b].getD 0 entDefault) = resetEnt a := rfl
  have hgb : ([resetEnt a, resetEnt b].getD 1 entDefault) = resetEnt b := rfl
  rw [hga, hgb, getOBB_resetEnt, getOBB_resetEnt, hmtv]
  rfl

/-- C3: in a collision pass over an overlapping pair where only the first
    entity carries the Combustible marker and the second's id is not 0, the
    combustible entity is destroyed, the other stays alive, and the other's
    Health (when present) loses the fixed 30 damage. -/
theorem sCollision_combustible_pair (a b : Entity) (mtv : Vec3)
    (ha : a.alive = true) (hb : b.alive = true)
    (hap : a.pos.isSome = true) (hac : a.col.isSome = true)
    (hbp : b.pos.isSome = true) (hbc : b.col.isSome = true)
    (hca : a.combustible = true) (hcb : b.combustible = false) (hid : b.id ≠ 0)
    (hmtv : satOBB (getOBB a) (getOBB b) = some mtv) :
    ((sCollision [a, b])[0]?).map Entity.alive = some false ∧
    ((sCollision [a, b])[1]?).map Entity.alive = some true ∧
    ((sCollision [a, b])[0]?).map Entity.health = some a.health ∧
    ((sCollision [a, b])[1]?).map Entity.health =
      some (b.health.map (fun h => { h with hp := h.hp - 30 })) := by
  rw [sCollision_pair_eval a b mtv ha hb hap hac hbp hbc hmtv]
  obtain ⟨h1, h2, h3, h4⟩ := pairProcess_combust_first (resetEnt a) (resetEnt b)
    mtv (by rw [resetEnt_combustible]; exact hca)
    (by rw [resetEnt_combustible]; exact hcb)
    (by rw [resetEnt_id]; exact hid)
  refine ⟨?_, ?_, ?_, ?_⟩
  · show some ((pairProcess (resetEnt a) (resetEnt b) mtv).1.alive) = some false
    rw [h1]
  · show some ((pairProcess (resetEnt a) (resetEnt b) mtv).2.alive) = some true
    rw [h3, resetEnt_alive, hb]
  · show some ((pairProcess (resetEnt a) (resetEnt b) mtv).1.health) = some a.health
    rw [h2, resetEnt_health]
  · show some ((pairProcess (resetEnt a) (resetEnt b) mtv).2.health) = _
    rw [h4, resetEnt_health]

/-- C10: when both sides of an overlapping pair carry the Combustible marker
    and neither id is 0, one collision pass destroys both entities and each
    side with a Health component loses 30 hit points. -/
theorem sCollision_combustible_both (a b : Entity) (mtv : Vec3)
    (ha : a.alive = true) (hb : b.alive = true)
    (hap : a.pos.isSome = true) (hac : a.col.isSome = true)
    (hbp : b.pos.isSome = true) (hbc : b.col.isSome = true)
    (hca : a.combustible = true) (hcb : b.combustible = true)
    (hida : a.id ≠ 0) (hidb : b.id ≠ 0)
    (hmtv : satOBB (getOBB a) (getOBB b) = some mtv) :
    ((sCollision [a, b])[0]?).map Entity.alive = some false ∧
    ((sCollision [a, b])[1]?).map Entity.alive = some false ∧
    ((sCollision [a, b])[0]?).map Entity.health =
      some (a.health.map (fun h => { h with hp := h.hp - 30 })) ∧
    ((sCollision [a, b])[1]?).map Entity.health =
      some (b.health.map (fun h => { h with hp := h.hp - 30 })) := by
  rw [sCollision_pair_eval a b mtv ha hb hap hac hbp hbc hmtv]
  obtain ⟨h1, h2, h3, h4⟩ := pairProcess_combust_both (resetEnt a) (resetEnt b)
    mtv (by rw [resetEnt_combustible]; exact hca)
    (by rw [resetEnt_combustible]; exact hcb)
    (by rw [resetEnt_id]; exact hida)
    (by rw [resetEnt_id]; exact hidb)
  refine ⟨?_, ?_, ?_, ?_⟩
  · show some ((pairProcess (resetEnt a) (resetEnt b) mtv).1.alive) = some false
    rw [h1]
  · show some ((pairProcess (resetEnt a) (resetEnt b) mtv).2.alive) = some false
    rw [h2]
  · show some ((pairProcess (resetEnt a) (resetEnt b) mtv).1.health) = _
    rw [h3, resetEnt_health]
  · show some ((pairProcess (resetEnt a) (resetEnt b) mtv).2.health) = _
    rw [h4, resetEnt_health]

theorem quatToMat3_ident : quatToMat3 qIdent = idMat3 := by
  unfold quatToMat3 qIdent idMat3
  norm_num

theorem getOBB_eComb : getOBB eComb = cBoxA := by
  unfold getOBB eComb cBoxA entDefault
  simp only [Option.getD_some]
  rw [quatToMat3_ident]

theorem getOBB_eVict : getOBB eVict = cBoxB := by
  unfold getOBB eVict cBoxB entDefault
  simp only [Option.getD_some]
  rw [quatToMat3_ident]

theorem getOBB_eCombB : getOBB eCombB = cBoxB := by
  unfold getOBB eCombB cBoxB entDefault
  simp only [Option.getD_some]
  rw [quatToMat3_ident]

theorem satOBB_eComb_eVict :
    satOBB (getOBB eComb) (getOBB eVict) = some ⟨-(1 / 5), 0, 0⟩ := by
  rw [getOBB_eComb, getOBB_eVict]
  exact satOBB_cBox_eval

theorem satOBB_eComb_eCombB :
    satOBB (getOBB eComb) (getOBB eCombB) = some ⟨-(1 / 5), 0, 0⟩ := by
  rw [getOBB_eComb, getOBB_eCombB]
  exact satOBB_cBox_eval

theorem sCollision_combustible_pair_witness :
    ((sCollision [eComb, eVict])[0]?).map Entity.alive = some false ∧
    ((sCollision [eComb, eVict])[1]?).map Entity.alive = some true ∧
    ((sCollision [eComb, eVict])[1]?).map Entity.health =
      some (some ⟨100, 70⟩) := by
  obtain ⟨h1, h2, h3, h4⟩ := sCollision_combustible_pair eComb eVict
    ⟨-(1 / 5), 0, 0⟩ rfl rfl rfl rfl rfl rfl rfl rfl
    (by norm_num [eVict, entDefault]) satOBB_eComb_eVict
  refine ⟨h1, h2, ?_⟩
  rw [h4]
  norm_num [eVict, entDefault]

theorem sCollision_combustible_both_witness :
    ((sCollision [eComb, eCombB])[0]?).map Entity.alive = some false ∧
    ((sCollision [eComb, eCombB])[1]?).map Entity.alive = some false ∧
    ((sCollision [eComb, eCombB])[0]?).map Entity.health = some none ∧
    ((sCollision [eComb, eCombB])[1]?).map Entity.health =
      some (some ⟨100, 70⟩) := by
  obtain ⟨h1, h2, h3, h4⟩ := sCollision_combustible_both eComb eCombB
    ⟨-(1 / 5), 0, 0⟩ rfl rfl rfl rfl rfl rfl rfl rfl
    (by norm_num [eComb, entDefault])
    (by norm_num [eCombB, entDefault]) satOBB_eComb_eCombB
  refine ⟨h1, h2, ?_, ?_⟩
  · rw [h3]
    norm_num [eComb, entDefault]
  · rw [h4]
    norm_num [eCombB, entDefault]

theorem Vec3.ext_of (a b : Vec3) (hx : a.x = b.x) (hy : a.y = b.y)
    (hz : a.z = b.z) : a = b := by
  cases a
  cases b
  simp_all

theorem Vec3.normalize_of_length_one (u : Vec3) (h : u.length = 1) :
    u.normalize = u := by
  unfold Vec3.normalize
  rw [h]
  rw [if_neg one_ne_zero]
  apply Vec3.ext_of <;> simp [Vec3.smul]

theorem Vec3.lengthSq_add (a b : Vec3) :
    (a.add b).lengthSq = a.lengthSq + 2 * a.dot b + b.lengthSq := by
  unfold Vec3.lengthSq Vec3.dot Vec3.add
  ring

theorem Vec3.add_sub_cancel_left (a w : Vec3) : (a.add w).sub a = w := by
  apply Vec3.ext_of <;> simp [Vec3.add, Vec3.sub]

theorem sMovement_plain (e : Entity) (p : PosComp) (v : Vec3) (keys : Keys)
    (cam : Quat) (cfg : PlayerConfig) (dt : ℝ)
    (he : e.alive = true) (hp : e.pos = some p) (hv : e.vel = some v)
    (hin : e.input = false) :
    sMovement [e] keys cam cfg dt =
      [{ e with
          pos := some { p with
            position := p.position.add (Vec3.smul dt v) } }] := by
  unfold sMovement
  rw [List.map_cons, List.map_nil]
  simp only [hp, hv, he, hin]
  simp

theorem sGravity_grounded (e : Entity) (p : PosComp) (cfg : PlayerConfig)
    (dt : ℝ) (hp : e.pos = some p) (hg : p.isOnGround = true)
    (hv : e.vel.isSome = true) :
    sGravity [e] cfg dt = [e] := by
  unfold sGravity
  rw [List.map_cons, List.map_nil]
  cases hvv : e.vel with
  | none =>
    rw [hvv] at hv
    cases hv
  | some v =>
    simp only [hp, hvv, hg]
    simp

theorem sGravity_falling (e : Entity) (p : PosComp) (v : Vec3)
    (cfg : PlayerConfig) (dt : ℝ)
    (he : e.alive = true) (hp : e.pos = some p) (hg : p.isOnGround = false)
    (hv : e.vel = some v) (hgr : e.gravity = true) :
    sGravity [e] cfg dt = [{ e with
      vel := some ⟨v.x, v.y - cfg.gravity * dt, v.z⟩,
      pos := some { p with
        position := p.position.add
          (Vec3.smul dt ⟨v.x, v.y - cfg.gravity * dt, v.z⟩) } }] := by
  unfold sGravity
  rw [List.map_cons, List.map_nil]
  simp only [hp, hv, he, hgr, hg]
  simp

theorem collisionPairsPass_single (e : Entity) (hcol : e.col.isSome = false) :
    collisionPairsPass [e] = [e] := by
  unfold collisionPairsPass
  have hc : collidables [e] = [] := by
    unfold collidables
    have hlen : ([e] : List Entity).length = 1 := rfl
    rw [hlen]
    have hr : List.range 1 = [0] := rfl
    rw [hr, List.filter_cons, List.filter_nil]
    have hcond : (([e].getD 0 entDefault).alive
        && ([e].getD 0 entDefault).col.isSome
        && ([e].getD 0 entDefault).pos.isSome) = false := by
      have h1 : ([e].getD 0 entDefault) = e := rfl
      rw [h1, hcol]
      simp
    rw [hcond]
    simp
  rw [hc]
  rfl

theorem sCollision_single_nocol (e : Entity) (hcol : e.col.isSome = false) :
    sCollision [e] = [resetEnt e] := by
  unfold sCollision resetGrounded
  rw [List.map_cons, List.map_nil]
  exact collisionPairsPass_single (resetEnt e)
    (by rw [resetEnt_col]; exact hcol)

theorem sLifespan_none (e : Entity) (dt : ℝ) (hl : e.lifespan = none)
    (hh : e.health = none) : sLifespan [e] dt = [e] := by
  unfold sLifespan
  simp only [List.map_cons, List.map_nil, hl, hh]

theorem resetEnt_active (e : Entity) (p : PosComp) (hal : e.alive = true)
    (hp : e.pos = some p) (hv : e.vel.isSome = true) :
    resetEnt e = { e with pos := some ⟨p.position, false⟩ } := by
  unfold resetEnt
  rw [if_pos ⟨hal, by rw [hp]; rfl, hv⟩]
  rw [hp]
  rfl

theorem tickSystems_grounded_eval (e : Entity) (p : PosComp)
    (v : Vec3) (keys : Keys) (cam : Quat) (cfg : PlayerConfig) (dt : ℝ)
    (he : e.alive = true) (hp : e.pos = some p) (hg : p.isOnGround = true)
    (hv : e.vel = some v) (hin : e.input = false) (hcol : e.col = none)
    (hlife : e.lifespan = none) (hhp : e.health = none) :
    tickSystems [e] keys cam cfg dt =
      [{ e with pos := some ⟨p.position.add (Vec3.smul dt v), false⟩ }] := by
  unfold tickSystems
  rw [sMovement_plain e p v keys cam cfg dt he hp hv hin]
  rw [sGravity_grounded
    { e with
      pos := some { p with position := p.position.add (Vec3.smul dt v) } }
    { p with position := p.position.add (Vec3.smul dt v) }
    cfg dt rfl hg (by simp [hv])]
  rw [sCollision_single_nocol _ (by simp [hcol])]
  rw [resetEnt_active
    { e with
      pos := some { p with position := p.position.add (Vec3.smul dt v) } }
    { p with position := p.position.add (Vec3.smul dt v) }
    (by simp [he]) rfl (by simp [hv])]
  rw [sLifespan_none _ dt (by simp [hlife]) (by simp [hhp])]

/-- C4 (amended): the grounded flag is cleared on every Position+Velocity
    entity inside the collision step, which runs after movement and gravity
    integration; hence a grounded gravity-affected entity keeps its velocity
    through the tick (gravity still sees the previous tick's grounded flag)
    and ends the tick with the grounded flag false, its position advanced only
    by the movement integration. -/
theorem tick_grounded_cleared_in_collision_step (e : Entity) (p : PosComp)
    (v : Vec3) (keys : Keys) (cam : Quat) (cfg : PlayerConfig) (dt : ℝ)
    (he : e.alive = true) (hp : e.pos = some p) (hg : p.isOnGround = true)
    (hv : e.vel = some v) (hin : e.input = false) (hcol : e.col = none)
    (hlife : e.lifespan = none) (hhp : e.health = none) :
    tickSystems [e] keys cam cfg dt =
      [{ e with pos := some ⟨p.position.add (Vec3.smul dt v), false⟩ }] :=
  tickSystems_grounded_eval e p v keys cam cfg dt he hp hg hv hin hcol hlife hhp

theorem tick_grounded_cleared_witness :
    tickSystems [eGrav] keysNone qIdent cfg0 1 =
      [{ eGrav with
          pos := some ⟨(Vec3.mk 0 5 0).add (Vec3.smul 1 ⟨0, 0, 0⟩), false⟩ }] :=
  tick_grounded_cleared_in_collision_step eGrav ⟨⟨0, 5, 0⟩, true⟩ ⟨0, 0, 0⟩
    keysNone qIdent cfg0 1 rfl rfl rfl rfl rfl rfl rfl rfl

theorem tickSystems_eGrav_eval :
    tickSystems [eGrav] keysNone qIdent cfg0 1 =
      [{ eGrav with pos := some ⟨⟨0, 5, 0⟩, false⟩ }] := by
  rw [tickSystems_grounded_eval eGrav ⟨⟨0, 5, 0⟩, true⟩ ⟨0, 0, 0⟩
    keysNone qIdent cfg0 1 rfl rfl rfl rfl rfl rfl rfl rfl]
  norm_num [Vec3.add, Vec3.smul]

theorem tickResetFirst_eGrav_eval :
    tickResetFirst [eGrav] keysNone qIdent cfg0 1 =
      [{ eGrav with
          pos := some ⟨⟨0, -15, 0⟩, false⟩,
          vel := some ⟨0, -20, 0⟩ }] := by
  have hE0 : resetEnt eGrav = { eGrav with pos := some ⟨⟨0, 5, 0⟩, false⟩ } := by
    rw [resetEnt_active eGrav ⟨⟨0, 5, 0⟩, true⟩ rfl rfl rfl]
  have h1 : sMovement [{ eGrav with pos := some ⟨⟨0, 5, 0⟩, false⟩ }]
      keysNone qIdent cfg0 1 =
      [{ eGrav with pos := some ⟨⟨0, 5, 0⟩, false⟩ }] := by
    rw [sMovement_plain { eGrav with pos := some ⟨⟨0, 5, 0⟩, false⟩ }
      ⟨⟨0, 5, 0⟩, false⟩ ⟨0, 0, 0⟩ keysNone qIdent cfg0 1 rfl rfl rfl rfl]
    norm_num [Vec3.add, Vec3.smul]
  have h2 : sGravity [{ eGrav with pos := some ⟨⟨0, 5, 0⟩, false⟩ }] cfg0 1 =
      [{ eGrav with
          pos := some ⟨⟨0, -15, 0⟩, false⟩,
          vel := some ⟨0, -20, 0⟩ }] := by
    rw [sGravity_falling { eGrav with pos := some ⟨⟨0, 5, 0⟩, false⟩ }
      ⟨⟨0, 5, 0⟩, false⟩ ⟨0, 0, 0⟩ cfg0 1 rfl rfl rfl rfl rfl]
    norm_num [Vec3.add, Vec3.smul, cfg0]
  have h3 : collisionPairsPass [{ eGrav with
      pos := some ⟨⟨0, -15, 0⟩, false⟩,
      vel := some ⟨0, -20, 0⟩ }] = [{ eGrav with
      pos := some ⟨⟨0, -15, 0⟩, false⟩,
      vel := some ⟨0, -20, 0⟩ }] :=
    collisionPairsPass_single _ rfl
  have h4 : sLifespan [{ eGrav with
      pos := some ⟨⟨0, -15, 0⟩, false⟩,
      vel := some ⟨0, -20, 0⟩ }] 1 = [{ eGrav with
      pos := some ⟨⟨0, -15, 0⟩, false⟩,
      vel := some ⟨0, -20, 0⟩ }] :=
    sLifespan_none _ 1 rfl rfl
  unfold tickResetFirst resetGrounded
  rw [List.map_cons, List.map_nil, hE0, h1, h2, h3, h4]

/-- C4 counterexample: on a grounded gravity-affected entity, the code's tick
    (reset inside the collision step) and the claim's tick (reset as the first
    pipeline step, before movement and gravity) produce different states: in
    the latter gravity fires and changes the velocity. -/
theorem tick_reset_first_counterexample :
    tickSystems [eGrav] keysNone qIdent cfg0 1 ≠
      tickResetFirst [eGrav] keysNone qIdent cfg0 1 := by
  rw [tickSystems_eGrav_eval, tickResetFirst_eGrav_eval]
  intro hcon
  have h2 := congrArg (fun l => (l.head?).map Entity.vel) hcon
  simp only [List.head?, Option.map_some] at h2
  simp [eGrav, entDefault] at h2


/-- C8: for a player-controlled entity, holding the two orthogonal inputs W
    and D for one tick moves it by a horizontal displacement of magnitude
    speed times dt, the same magnitude as holding W alone, because the
    combined move direction is normalized when nonzero. -/
theorem sMovement_diagonal_normalized (e : Entity) (p : PosComp) (v : Vec3)
    (cam : Quat) (cfg : PlayerConfig) (dt : ℝ)
    (he : e.alive = true) (hp : e.pos = some p) (hv : e.vel = some v)
    (hin : e.input = true)
    (hf : (projXZ (applyQuat cam ⟨0, 0, -1⟩)).lengthSq ≠ 0)
    (hr : (projXZ (applyQuat cam ⟨1, 0, 0⟩)).lengthSq ≠ 0)
    (ho : (projXZ (applyQuat cam ⟨0, 0, -1⟩)).normalize.dot
        (projXZ (applyQuat cam ⟨1, 0, 0⟩)).normalize = 0)
    (hsd : 0 ≤ cfg.speed * dt) :
    (((sMovement [e] keysWD cam cfg dt).head?).bind
        (fun e2 => e2.pos.map (fun p2 => (p2.position.sub p.position).length))
      = some (cfg.speed * dt)) ∧
    (((sMovement [e] keysW cam cfg dt).head?).bind
        (fun e2 => e2.pos.map (fun p2 => (p2.position.sub p.position).length))
      = some (cfg.speed * dt)) := by
  constructor
  · unfold sMovement
    simp only [List.map_cons, List.map_nil, hp, hv, he, hin, keysWD,
      List.head?, if_true, Bool.false_eq_true, false_and, if_false, sub_zero,
      Option.some_bind, Option.map_some, Option.map_some', Option.some.injEq]
    rw [Vec3.add_sub_cancel_left]
    have hmv : (Vec3.zero.add (Vec3.smul 1
          (projXZ (applyQuat cam ⟨0, 0, -1⟩)).normalize)).add
        (Vec3.smul 1 (projXZ (applyQuat cam ⟨1, 0, 0⟩)).normalize) =
        (projXZ (applyQuat cam ⟨0, 0, -1⟩)).normalize.add
          ((projXZ (applyQuat cam ⟨1, 0, 0⟩)).normalize) := by
      apply Vec3.ext_of <;> simp [Vec3.zero, Vec3.add, Vec3.smul]
    rw [hmv]
    have hsq : ((projXZ (applyQuat cam ⟨0, 0, -1⟩)).normalize.add
        ((projXZ (applyQuat cam ⟨1, 0, 0⟩)).normalize)).lengthSq = 2 := by
      rw [Vec3.lengthSq_add, Vec3.lengthSq_normalize _ hf,
        Vec3.lengthSq_normalize _ hr, ho]
      ring
    rw [if_pos (by rw [hsq]; norm_num)]
    rw [Vec3.length_smul, Vec3.length_normalize _ (by rw [hsq]; norm_num),
      mul_one, abs_of_nonneg hsd]
  · unfold sMovement
    simp only [List.map_cons, List.map_nil, hp, hv, he, hin, keysW,
      List.head?, if_true, Bool.false_eq_true, false_and, if_false, sub_zero,
      Option.some_bind, Option.map_some, Option.map_some', Option.some.injEq]
    rw [Vec3.add_sub_cancel_left]
    have hmv : (Vec3.zero.add (Vec3.smul 1
          (projXZ (applyQuat cam ⟨0, 0, -1⟩)).normalize)).add
        (Vec3.smul 0 (projXZ (applyQuat cam ⟨1, 0, 0⟩)).normalize) =
        (projXZ (applyQuat cam ⟨0, 0, -1⟩)).normalize := by
      apply Vec3.ext_of <;> simp [Vec3.zero, Vec3.add, Vec3.smul]
    rw [hmv]
    have hsq : ((projXZ (applyQuat cam ⟨0, 0, -1⟩)).normalize).lengthSq = 1 :=
      Vec3.lengthSq_normalize _ hf
    rw [if_pos (by rw [hsq]; norm_num)]
    rw [Vec3.length_smul, Vec3.length_normalize _ (by rw [hsq]; norm_num),
      mul_one, abs_of_nonneg hsd]

theorem sMovement_diagonal_normalized_witness :
    (((sMovement [ePlayer] keysWD qIdent cfg0 2).head?).bind
        (fun e2 => e2.pos.map (fun p2 =>
          (p2.position.sub (Vec3.mk 0 2 0)).length)) = some (cfg0.speed * 2)) ∧
    (((sMovement [ePlayer] keysW qIdent cfg0 2).head?).bind
        (fun e2 => e2.pos.map (fun p2 =>
          (p2.position.sub (Vec3.mk 0 2 0)).length)) = some (cfg0.speed * 2)) :=
  sMovement_diagonal_normalized ePlayer ⟨⟨0, 2, 0⟩, false⟩ ⟨0, 0, 0⟩ qIdent
    cfg0 2 rfl rfl rfl rfl
    (by norm_num [applyQuat, qIdent, projXZ, Vec3.lengthSq, Vec3.dot])
    (by norm_num [applyQuat, qIdent, projXZ, Vec3.lengthSq, Vec3.dot])
    (by norm_num [applyQuat, qIdent, projXZ, Vec3.normalize, Vec3.length,
      Vec3.lengthSq, Vec3.dot, Vec3.smul, Real.sqrt_one])
    (by norm_num [cfg0])
